import Mathlib

/-!
# Student report management: a shallow embedding of `united-1.cpp`

The program keeps `Student records[MAX_STUDENTS]` and `int student_count` as
globals, talks to the operator through `stdin`, and persists the array as a raw
dump in `student_records.dat`.

Modelling conventions
* a `char` is a `Nat` (its value as `unsigned char`); a C string is the list of
  bytes that starts at the pointer, read up to the first `0`; the end of a
  modelled list reads as `0`;
* `stdin` is the list of bytes still to be read; the empty list is end of file;
* the array `records` is the flat list of its bytes, `sizeof(Student)` per
  element; the persisted file is `none` when absent, else its bytes;
* a function that can block forever in `while (getchar() != '\n');` reports the
  remaining input as `none`.
-/

namespace StudentReport

/-! ## Constants -/

def MAX_STUDENTS : Nat := 100
def MAX_NAME_LEN : Nat := 50
def MAX_COURSE_LEN : Nat := 30
def MAX_SUBJECTS_LEN : Nat := 100

/-- The bytes of a string literal (without a terminator). -/
def bytes (s : String) : List Nat := s.toList.map Char.toNat

/-! ## The C library functions the program calls -/

/-- `strlen`: the number of bytes before the first `0`. -/
def strlen : List Nat → Nat
  | [] => 0
  | c :: s => if c = 0 then 0 else strlen s + 1

/-- The contents of the C string that starts at the head of the list. -/
def cstr : List Nat → List Nat
  | [] => []
  | c :: s => if c = 0 then [] else c :: cstr s

/-- `isdigit` in the C locale. -/
def isdigit (c : Nat) : Bool := decide (48 ≤ c ∧ c ≤ 57)

/-- `isspace` in the C locale: space, `\t`, `\n`, `\v`, `\f`, `\r`. -/
def isspace (c : Nat) : Bool := decide (c = 32 ∨ (9 ≤ c ∧ c ≤ 13))

/-- `strcmp`; only the sign of the result is specified by C, the program tests
it against `0`. -/
def strcmp : List Nat → List Nat → Int
  | [], [] => 0
  | [], b :: _ => -(b : Int)
  | a :: _, [] => (a : Int)
  | a :: s, b :: t => if a ≠ b then (a : Int) - (b : Int) else if a = 0 then 0 else strcmp s t

/-- `strcspn(s, reject)`: the length of the initial segment of the C string `s`
that has no byte of `reject`. -/
def strcspn : List Nat → List Nat → Nat
  | [], _ => 0
  | c :: s, reject => if c = 0 ∨ c ∈ reject then 0 else strcspn s reject + 1

/-- `strncpy(dest, src, n)`: the `n` bytes written to `dest`; the copy stops at
the terminator of `src` and the rest is filled with `0`. -/
def strncpy : List Nat → Nat → List Nat
  | _, 0 => []
  | [], n + 1 => 0 :: strncpy [] n
  | c :: s, n + 1 => if c = 0 then List.replicate (n + 1) 0 else c :: strncpy s n

/-- The bytes `fgets` takes from the stream when it may store `k` of them: it
stops after a newline, at end of file, or when `k` bytes are stored. The result
is the bytes stored and the rest of the stream. -/
def fgets_chars : Nat → List Nat → List Nat × List Nat
  | 0, s => ([], s)
  | _ + 1, [] => ([], [])
  | k + 1, c :: s =>
    if c = 10 then ([c], s) else ((c :: (fgets_chars k s).1), (fgets_chars k s).2)

/-- `fgets(buffer, size, stdin)`: `none` is the `NULL` returned at end of file;
otherwise the buffer contents, terminator included, and the rest of the
stream. -/
def fgets (size : Nat) (stdin : List Nat) : Option (List Nat × List Nat) :=
  match stdin with
  | [] => none
  | _ :: _ => some ((fgets_chars (size - 1) stdin).1 ++ [0], (fgets_chars (size - 1) stdin).2)

/-- The statement `buffer[strcspn(buffer, "\n")] = 0;`. -/
def strip_newline (buffer : List Nat) : List Nat :=
  buffer.set (strcspn buffer [10]) 0

/-- The loop `while (getchar() != '\n');`: the stream after the first newline;
`none` when there is no newline, where the loop never ends (`getchar` keeps
returning `EOF`). -/
def discard_line : List Nat → Option (List Nat)
  | [] => none
  | c :: s => if c = 10 then some s else discard_line s

/-- `pause_and_clear()`: waits for ENTER. -/
def pause_and_clear (stdin : List Nat) : Option (List Nat) := discard_line stdin

/-- Leading white space skipped by a `scanf` directive. -/
def skip_ws : List Nat → List Nat
  | [] => []
  | c :: s => if isspace c then skip_ws s else c :: s

/-- The non-white bytes a `%Ns` directive stores, at most `n`, and the rest. -/
def scan_token : Nat → List Nat → List Nat × List Nat
  | 0, s => ([], s)
  | _ + 1, [] => ([], [])
  | n + 1, c :: s =>
    if isspace c then ([], c :: s) else ((c :: (scan_token n s).1), (scan_token n s).2)

/-! ## Validation -/

/-- The byte `s[i]`. -/
def byte_at (s : List Nat) (i : Nat) : Nat := s.getD i 0

/-- The loop `for (int i = 2; i < 13; i++) if (!isdigit(admn_no[i])) return 0;`
followed by `return 1;`, entered at index `i` with `todo` iterations left. -/
def is_valid_admn_no_loop (admn_no : List Nat) : Nat → Nat → Nat
  | _, 0 => 1
  | i, todo + 1 =>
    if !isdigit (byte_at admn_no i) then 0 else is_valid_admn_no_loop admn_no (i + 1) todo

/-- `int is_valid_admn_no(const char *admn_no)`. -/
def is_valid_admn_no (admn_no : List Nat) : Nat :=
  if strlen admn_no ≠ 13 then 0
  else if byte_at admn_no 0 ≠ 'A'.toNat ∨ byte_at admn_no 1 ≠ 'P'.toNat then 0
  else is_valid_admn_no_loop admn_no 2 11

/-! ## Data model -/

/-- A `float`, as its IEEE-754 binary32 bit pattern: sign (1 bit), biased
exponent (8 bits), fraction (23 bits). -/
structure F32 where
  bits : Nat
deriving DecidableEq

/-- Exponent all ones and a non-zero fraction. -/
def F32.isNaN (x : F32) : Bool :=
  decide ((x.bits / 2 ^ 23) % 256 = 255 ∧ x.bits % 2 ^ 23 ≠ 0)

/-- An integer that orders the non-NaN patterns as their values are ordered:
the magnitude bits, negated when the sign bit is set (both zeros give `0`). -/
def F32.key (x : F32) : Int :=
  if (x.bits / 2 ^ 31) % 2 = 1 then -((x.bits % 2 ^ 31 : Nat) : Int)
  else ((x.bits % 2 ^ 31 : Nat) : Int)

/-- The C comparison `x < y`: false when either side is a NaN. The program
compares a `float` with the `double` constants `0.0`, `10.0` and `100.0`; the
promotion is exact and the constants are binary32 values, so this is the
binary32 comparison. -/
def F32.lt (x y : F32) : Bool := !x.isNaN && !y.isNaN && decide (x.key < y.key)

/-- The C comparison `x <= y`: false when either side is a NaN. -/
def F32.le (x y : F32) : Bool := !x.isNaN && !y.isNaN && decide (x.key ≤ y.key)

/-- The constant `0.0`. -/
def F32.zero : F32 := ⟨0x00000000⟩
/-- The constant `10.0`. -/
def F32.ten : F32 := ⟨0x41200000⟩
/-- The constant `100.0`. -/
def F32.hundred : F32 := ⟨0x42C80000⟩

/-- The `Student` struct; the `char` arrays are byte lists of their declared
size once `add_record` has filled them. -/
structure Student where
  admn_no : List Nat
  name : List Nat
  age : Int
  course : List Nat
  subjects : List Nat
  gpa : F32
  attendance_perc : F32
  year_of_study : Int

/-- What the program takes from the compiler and the C library.
* `sizeof_Student` is `sizeof(Student)`;
* `repr s` is the object representation of the struct value `s`, the bytes
  that `records[i] = s` stores and `fwrite` dumps;
* `atoi buffer` is the result of `atoi` on the C string in `buffer`;
* `atof buffer` is the result of `atof` on the C string in `buffer`, converted
  to `float` by the assignment to a `float` member. -/
structure Platform where
  sizeof_Student : Nat
  repr : Student → List Nat
  atoi : List Nat → Int
  atof : List Nat → F32

/-- The layout facts about `repr` that hold for every C implementation: an
object has `sizeof` bytes, and the first member, a `char[14]`, sits at offset
`0` as its own bytes. -/
def Platform.layout_ok (p : Platform) : Prop :=
  ∀ s : Student, (p.repr s).length = p.sizeof_Student ∧
    (s.admn_no.length = 14 → (p.repr s).take 14 = s.admn_no)

/-- The globals `student_count` and `records`. The program only ever sets
`student_count` to `0`, to the count `fread` returns, or one higher than a
value below `MAX_STUDENTS`, so a natural number holds it. -/
structure Store where
  student_count : Nat
  records : List Nat

/-- The globals at process start: zero-initialised. -/
def Store.initial (p : Platform) : Store :=
  ⟨0, List.replicate (MAX_STUDENTS * p.sizeof_Student) 0⟩

/-- The bytes of `records[i]`. -/
def record_at (p : Platform) (records : List Nat) (i : Nat) : List Nat :=
  (records.drop (i * p.sizeof_Student)).take p.sizeof_Student

/-- The memory from the pointer `records[i].admn_no` on (offset `0` of
`records[i]`). -/
def admn_no_ptr (p : Platform) (records : List Nat) (i : Nat) : List Nat :=
  records.drop (i * p.sizeof_Student)

/-- The string held in `records[i].admn_no`, as `strcmp` and `printf("%s")`
read it. -/
def admn_no_at (p : Platform) (records : List Nat) (i : Nat) : List Nat :=
  cstr (admn_no_ptr p records i)

/-- The assignment `records[i] = s;`. -/
def store_record (p : Platform) (records : List Nat) (i : Nat) (s : Student) : List Nat :=
  records.take (i * p.sizeof_Student) ++ p.repr s ++ records.drop ((i + 1) * p.sizeof_Student)

/-! ## Persistence -/

/-- `void load_records()`; `stream` is what `fopen(FILENAME, "rb")` gives:
`none` for `NULL`, else the bytes of the file. `fread` fills `records` with the
bytes it gets, at most `MAX_STUDENTS` elements, and returns the number of whole
elements. -/
def load_records (p : Platform) (stream : Option (List Nat)) (st : Store) : Store :=
  match stream with
  | none => { st with student_count := 0 }
  | some data =>
    let nbytes := min data.length (MAX_STUDENTS * p.sizeof_Student)
    let read_count := min (data.length / p.sizeof_Student) MAX_STUDENTS
    { student_count := read_count, records := data.take nbytes ++ st.records.drop nbytes }

/-- `void save_records()`: the file afterwards. `wb_ok` tells whether
`fopen(FILENAME, "wb")` succeeds; `fwrite` dumps the first `student_count`
elements of `records`. -/
def save_records (p : Platform) (wb_ok : Bool) (st : Store) (disk : Option (List Nat)) :
    Option (List Nat) :=
  if wb_ok then some (st.records.take (st.student_count * p.sizeof_Student)) else disk

/-! ## Operations -/

/-- A `do { fgets; v = parse(buffer); } while (reject v);` loop of `add_record`.
`none` when `fgets` returns `NULL`. Every round takes at least one byte from the
stream, so `fuel` above the length of the stream is never used up
(`prompt_loop_fuel`). -/
def prompt_loop {α : Type} (parse : List Nat → α) (reject : α → Bool) :
    Nat → List Nat → Option (α × List Nat)
  | 0, _ => none
  | fuel + 1, stdin =>
    match fgets 256 stdin with
    | none => none
    | some (buffer, rest) =>
      if reject (parse buffer) then prompt_loop parse reject fuel rest
      else some (parse buffer, rest)

/-- The prompts of `add_record` from the name to the year of study: the filled
`new_student` and the rest of the stream, `none` when an `fgets` returned
`NULL`. -/
def read_student (p : Platform) (admn_no : List Nat) (stdin : List Nat) :
    Option (Student × List Nat) :=
  match fgets 256 stdin with
  | none => none
  | some (buffer, in2) =>
    let name := strncpy (strip_newline buffer) (MAX_NAME_LEN - 1) ++ [0]
    match prompt_loop p.atoi (fun v => decide (v < 16) || decide (v > 99))
        (in2.length + 1) in2 with
    | none => none
    | some (age, in3) =>
      match fgets 256 in3 with
      | none => none
      | some (buffer, in4) =>
        let course := strncpy (strip_newline buffer) (MAX_COURSE_LEN - 1) ++ [0]
        match fgets 256 in4 with
        | none => none
        | some (buffer, in5) =>
          let subjects := strncpy (strip_newline buffer) (MAX_SUBJECTS_LEN - 1) ++ [0]
          match prompt_loop p.atof (fun v => v.lt F32.zero || F32.ten.lt v)
              (in5.length + 1) in5 with
          | none => none
          | some (gpa, in6) =>
            match prompt_loop p.atof (fun v => v.lt F32.zero || F32.hundred.lt v)
                (in6.length + 1) in6 with
            | none => none
            | some (attendance_perc, in7) =>
              match prompt_loop p.atoi (fun v => decide (v < 1) || decide (v > 4))
                  (in7.length + 1) in7 with
              | none => none
              | some (year_of_study, in8) =>
                some (⟨admn_no, name, age, course, subjects, gpa, attendance_perc,
                  year_of_study⟩, in8)

/-- The duplicate scan of `add_record` and the scan of `search_record`:
`for (i = 0; i < student_count; i++) if (strcmp(records[i].admn_no, key) == 0)`,
the first index where the test succeeds. -/
def find_admn_no (p : Platform) (st : Store) (key : List Nat) : Option Nat :=
  (List.range st.student_count).find? (fun i => strcmp (admn_no_ptr p st.records i) key == 0)

/-- How a call of `add_record` ends. -/
inductive AddOutcome where
  | capacity_error
  | input_closed
  | invalid_format
  | duplicate_error
  | added
deriving DecidableEq

/-- The message printed, the globals and the file when `add_record` is done,
and the input left when it returns. -/
structure AddResult where
  outcome : AddOutcome
  st : Store
  disk : Option (List Nat)
  stdin : Option (List Nat)

/-- `void add_record()`. -/
def add_record (p : Platform) (wb_ok : Bool) (st : Store) (disk : Option (List Nat))
    (stdin : List Nat) : AddResult :=
  if st.student_count ≥ MAX_STUDENTS then
    ⟨.capacity_error, st, disk, pause_and_clear stdin⟩
  else
    match fgets 256 stdin with
    | none => ⟨.input_closed, st, disk, pause_and_clear stdin⟩
    | some (buffer, in1) =>
      let admn_no := strncpy (strip_newline buffer) 13 ++ [0]
      if is_valid_admn_no admn_no = 0 then
        ⟨.invalid_format, st, disk, pause_and_clear in1⟩
      else if (find_admn_no p st admn_no).isSome then
        ⟨.duplicate_error, st, disk, pause_and_clear in1⟩
      else
        match read_student p admn_no in1 with
        | none => ⟨.input_closed, st, disk, pause_and_clear []⟩
        | some (new_student, in8) =>
          let st1 : Store :=
            ⟨st.student_count + 1, store_record p st.records st.student_count new_student⟩
          match skip_ws in8 with
          | [] => ⟨.added, st1, disk, (discard_line []).bind pause_and_clear⟩
          | choice :: in9 =>
            let disk1 :=
              if choice = 'Y'.toNat ∨ choice = 'y'.toNat then save_records p wb_ok st1 disk
              else disk
            ⟨.added, st1, disk1, (discard_line in9).bind pause_and_clear⟩

/-- How a call of `search_record` ends; `found i` prints `records[i]`. -/
inductive SearchOutcome where
  | input_closed
  | invalid_format
  | found (i : Nat)
  | not_found
deriving DecidableEq

/-- The message printed and the globals when `search_record` is done, and the
input left when it returns. -/
structure SearchResult where
  outcome : SearchOutcome
  st : Store
  stdin : Option (List Nat)

/-- `void search_record()`. -/
def search_record (p : Platform) (st : Store) (stdin : List Nat) : SearchResult :=
  match fgets 14 stdin with
  | none => ⟨.input_closed, st, pause_and_clear stdin⟩
  | some (buffer, in1) =>
    let search_admn_no := strip_newline buffer
    if is_valid_admn_no search_admn_no = 0 then
      ⟨.invalid_format, st, pause_and_clear in1⟩
    else
      match find_admn_no p st search_admn_no with
      | some i => ⟨.found i, st, pause_and_clear in1⟩
      | none => ⟨.not_found, st, pause_and_clear in1⟩

/-- The globals and the file when `delete_all_records` is done, and the input
left when it returns. -/
structure DeleteResult where
  st : Store
  disk : Option (List Nat)
  stdin : Option (List Nat)

/-- `void delete_all_records()`. `remove_ok` tells whether `remove(FILENAME)`
can delete the file when there is one. -/
def delete_all_records (remove_ok : Bool) (st : Store) (disk : Option (List Nat))
    (stdin : List Nat) : DeleteResult :=
  match skip_ws stdin with
  | [] => ⟨st, disk, (discard_line []).bind pause_and_clear⟩
  | c :: s =>
    let confirmation := (scan_token 9 (c :: s)).1 ++ [0]
    match discard_line (scan_token 9 (c :: s)).2 with
    | none => ⟨st, disk, none⟩
    | some in1 =>
      if strcmp confirmation (bytes "YES" ++ [0]) = 0 then
        ⟨{ st with student_count := 0 }, if remove_ok then none else disk, pause_and_clear in1⟩
      else
        ⟨st, disk, pause_and_clear in1⟩

/-- The input of an operator who types eight lines, each ended with ENTER, at
the prompts of `add_record`, and then `rest`. -/
def typed_entry (q name age course subjects gpa att year rest : List Nat) : List Nat :=
  q ++ 10 :: (name ++ 10 :: (age ++ 10 :: (course ++ 10 :: (subjects ++ 10 ::
    (gpa ++ 10 :: (att ++ 10 :: (year ++ 10 :: rest)))))))

/-! ## A concrete platform: x86-64 Linux with glibc

Used to evaluate the operations on concrete input. -/

/-- An array member brought to its declared size. -/
def fit (n : Nat) (xs : List Nat) : List Nat := (xs ++ List.replicate n 0).take n

/-- Four bytes, least significant first. -/
def le32 (v : Nat) : List Nat :=
  [v % 256, v / 256 % 256, v / 65536 % 256, v / 16777216 % 256]

/-- The two's complement pattern of an `int`. -/
def int32_bits (v : Int) : Nat := (v % 2 ^ 32).toNat

/-- The System V x86-64 layout of `Student`: `admn_no` at 0, `name` at 14,
`age` at 64, `course` at 68, `subjects` at 98, two padding bytes, `gpa` at 200,
`attendance_perc` at 204, `year_of_study` at 208; 212 bytes in all. -/
def repr_x86_64 (s : Student) : List Nat :=
  fit 14 s.admn_no ++ fit MAX_NAME_LEN s.name ++ le32 (int32_bits s.age) ++
    fit MAX_COURSE_LEN s.course ++ fit MAX_SUBJECTS_LEN s.subjects ++ [0, 0] ++
    le32 s.gpa.bits ++ le32 s.attendance_perc.bits ++ le32 (int32_bits s.year_of_study)

/-- The value of a run of leading decimal digits, after `acc`. -/
def digits_value : List Nat → Nat → Nat
  | [], acc => acc
  | c :: s, acc => if isdigit c then digits_value s (10 * acc + (c - 48)) else acc

/-- What follows a run of leading decimal digits. -/
def digits_rest : List Nat → List Nat
  | [] => []
  | c :: s => if isdigit c then digits_rest s else c :: s

/-- `atoi` for strings whose value fits an `int`: white space, an optional
sign, decimal digits. -/
def atoi_glibc (buffer : List Nat) : Int :=
  match skip_ws buffer with
  | [] => 0
  | c :: s =>
    if c = '-'.toNat then -(digits_value s 0 : Int)
    else if c = '+'.toNat then (digits_value s 0 : Int)
    else (digits_value (c :: s) 0 : Int)

/-- The quotient `a / b` rounded to the nearest integer, ties to even. -/
def round_half_even (a b : Nat) : Nat :=
  if b < 2 * (a % b) ∨ (2 * (a % b) = b ∧ (a / b) % 2 = 1) then a / b + 1 else a / b

/-- The position of the highest set bit of `n` (`0` for `n < 2`); `fuel` at
least that position. -/
def log2_floor : Nat → Nat → Nat
  | 0, _ => 0
  | fuel + 1, n => if n < 2 then 0 else log2_floor fuel (n / 2) + 1

/-- The positive rational `num / den` rounded to a binary format with `prec`
significant bits and least normal exponent `emin`: the pair `(m, k)` stands for
`m * 2 ^ k`. -/
def round_binary (prec : Nat) (emin : Int) (num den : Nat) : Nat × Int :=
  let l : Int := (log2_floor num num : Int) - (log2_floor den den : Int)
  let above : Bool :=
    if 0 ≤ l then decide (den * 2 ^ l.toNat ≤ num) else decide (den ≤ num * 2 ^ (-l).toNat)
  let e : Int := if above then l else l - 1
  let k : Int := max e emin - ((prec : Int) - 1)
  if 0 ≤ k then (round_half_even num (den * 2 ^ k.toNat), k)
  else (round_half_even (num * 2 ^ (-k).toNat) den, k)

/-- The binary32 pattern of `(float)d`, where `d` is the `double` nearest to
`± num / den`. -/
def f32_of_ratio (neg : Bool) (num den : Nat) : F32 :=
  let sign := if neg then 2 ^ 31 else 0
  if num = 0 ∨ den = 0 then ⟨sign⟩
  else
    let d := round_binary 53 (-1022) num den
    if d.1 = 0 then ⟨sign⟩
    else
      let f :=
        if 0 ≤ d.2 then round_binary 24 (-126) (d.1 * 2 ^ d.2.toNat) 1
        else round_binary 24 (-126) d.1 (2 ^ (-d.2).toNat)
      ⟨sign + min ((f.2 + 149).toNat * 2 ^ 23 + f.1) 0x7F800000⟩

/-- ASCII lower case. -/
def tolower (c : Nat) : Nat := if 65 ≤ c ∧ c ≤ 90 then c + 32 else c

/-- The unsigned part of a `strtod` subject: `nan`, `inf`, or decimal digits
with an optional fraction and an optional decimal exponent. -/
def atof_unsigned (neg : Bool) (s : List Nat) : F32 :=
  if (s.take 3).map tolower = bytes "nan" then ⟨0x7FC00000⟩
  else if (s.take 3).map tolower = bytes "inf" then ⟨(if neg then 2 ^ 31 else 0) + 0x7F800000⟩
  else
    let ipart := digits_value s 0
    let r1 := digits_rest s
    let fdigits := if r1.head? = some '.'.toNat then r1.tail else []
    let r2 := if r1.head? = some '.'.toNat then digits_rest r1.tail else r1
    let flen := fdigits.length - (digits_rest fdigits).length
    let mant := digits_value fdigits ipart
    let has_exp : Bool :=
      match r2 with
      | c :: d :: t =>
        tolower c = 'e'.toNat &&
          (isdigit d || ((d = '+'.toNat || d = '-'.toNat) && (t.head?.map isdigit = some true)))
      | _ => false
    let eneg : Bool := has_exp && r2.tail.head? = some '-'.toNat
    let edigits :=
      if has_exp then
        (if r2.tail.head?.map isdigit = some true then r2.tail else r2.tail.tail)
      else []
    let ex : Int := (if eneg then -(digits_value edigits 0 : Int) else digits_value edigits 0) - flen
    if 0 ≤ ex then f32_of_ratio neg (mant * 10 ^ ex.toNat) 1
    else f32_of_ratio neg mant (10 ^ (-ex).toNat)

/-- The value of `atof`, converted to `float`, for decimal subjects, `nan` and
`inf` (hexadecimal subjects are not modelled and read as their leading `0`). -/
def atof_glibc (buffer : List Nat) : F32 :=
  match skip_ws buffer with
  | [] => F32.zero
  | c :: s =>
    if c = '-'.toNat then atof_unsigned true s
    else if c = '+'.toNat then atof_unsigned false s
    else atof_unsigned false (c :: s)

/-- The x86-64 Linux platform. -/
def x86_64 : Platform := ⟨212, repr_x86_64, atoi_glibc, atof_glibc⟩

/-! ## Reachable states -/

/-- The 14 bytes of `records[i].admn_no` in a flat array of records. -/
def key_field (p : Platform) (records : List Nat) (i : Nat) : List Nat :=
  (records.drop (i * p.sizeof_Student)).take 14

/-- The first `n` records hold terminated 13-byte admission numbers, no two of
them the same. -/
def keys_ok (p : Platform) (records : List Nat) (n : Nat) : Prop :=
  (∀ i, i < n → ∃ q, 0 ∉ q ∧ q.length = 13 ∧ key_field p records i = q ++ [0]) ∧
  (∀ i j, i < n → j < n → key_field p records i = key_field p records j → i = j)

/-- The invariant of the globals and the file behind the uniqueness of
admission numbers. -/
def store_ok (p : Platform) (st : Store) (disk : Option (List Nat)) : Prop :=
  st.records.length = MAX_STUDENTS * p.sizeof_Student ∧
  st.student_count ≤ MAX_STUDENTS ∧
  keys_ok p st.records st.student_count ∧
  ∀ data, disk = some data →
    ∃ m, m ≤ MAX_STUDENTS ∧ data.length = m * p.sizeof_Student ∧ keys_ok p data m

/-- The globals and the file that a first run of the program (no file yet), the
operations of its menu and later runs on the file left behind can produce.
Every operation may get any input; `fopen` and `remove` may succeed or
fail. -/
inductive Reachable (p : Platform) : Store → Option (List Nat) → Prop
  | start : Reachable p (load_records p none (Store.initial p)) none
  | add (st : Store) (disk : Option (List Nat)) (wb_ok : Bool) (stdin : List Nat) :
      Reachable p st disk →
      Reachable p (add_record p wb_ok st disk stdin).st (add_record p wb_ok st disk stdin).disk
  | save (st : Store) (disk : Option (List Nat)) (wb_ok : Bool) :
      Reachable p st disk → Reachable p st (save_records p wb_ok st disk)
  | load (st : Store) (disk : Option (List Nat)) (rb_ok : Bool) :
      Reachable p st disk →
      Reachable p (load_records p (if rb_ok then disk else none) st) disk
  | delete (st : Store) (disk : Option (List Nat)) (remove_ok : Bool) (stdin : List Nat) :
      Reachable p st disk →
      Reachable p (delete_all_records remove_ok st disk stdin).st
        (delete_all_records remove_ok st disk stdin).disk
  | restart (st : Store) (disk : Option (List Nat)) (rb_ok : Bool) :
      Reachable p st disk →
      Reachable p (load_records p (if rb_ok then disk else none) (Store.initial p)) disk

/-! ## Concrete inputs -/

/-- The lines after the admission number of a well-formed entry, then `N` at
the save prompt and ENTER for the pause. -/
def asha_fields : List Nat := bytes "Asha\n20\nCS\nMath,OS\n8.5\n92.0\n2\nN\n\n"

/-- A complete, well-formed entry: the record of the scenario in the
specification. -/
def asha_input : List Nat := bytes "AP00000000001" ++ 10 :: asha_fields

/-- A second well-formed entry. -/
def ravi_input : List Nat :=
  bytes "AP00000000002\nRavi\n21\nEE\nCircuits\n7.25\n88.5\n3\nN\n\n"

/-- The same entry with four digits too many in the admission number. -/
def long_key_input : List Nat :=
  bytes "AP000000000012345\nAsha\n20\nCS\nMath,OS\n8.5\n92.0\n2\nN\n\n"

/-- The same entry with `nan` typed at the GPA prompt. -/
def nan_gpa_input : List Nat :=
  bytes "AP00000000001\nAsha\n20\nCS\nMath,OS\nnan\n92.0\n2\nN\n\n"

/-- The record that `asha_input` describes. -/
def asha : Student :=
  ⟨bytes "AP00000000001" ++ [0],
    strncpy (bytes "Asha" ++ [0]) 49 ++ [0], 20,
    strncpy (bytes "CS" ++ [0]) 29 ++ [0],
    strncpy (bytes "Math,OS" ++ [0]) 99 ++ [0],
    ⟨0x41080000⟩, ⟨0x42B80000⟩, 2⟩

/-- The globals after `asha_input` was entered in a fresh process. -/
def one_record : Store :=
  (add_record x86_64 false (load_records x86_64 none (Store.initial x86_64)) none asha_input).st

/-- The globals after `ravi_input` was entered next. -/
def two_records : Store := (add_record x86_64 false one_record none ravi_input).st

/-- Globals with all 100 slots in use. -/
def full_store : Store := { Store.initial x86_64 with student_count := MAX_STUDENTS }

/-- A file that this program did not write: one block whose `admn_no` is `XP1`. -/
def foreign_file : List Nat := repr_x86_64 { asha with admn_no := bytes "XP1" }

/-- A file that this program did not write: the block of `asha` twice. -/
def twin_file : List Nat := repr_x86_64 asha ++ repr_x86_64 asha

/-- A second entry whose course line has 300 bytes; every line typed is
well-formed: age `21`, subjects `Math,OS`, GPA `8.5`, attendance `2.0`,
year `3`. -/
def long_course_input : List Nat :=
  bytes "AP00000000002\nRavi\n21\n" ++ List.replicate 300 'x'.toNat ++
    bytes "\nMath,OS\n8.5\n2.0\n3\nN\n\n"

/-- The record that the lines of `long_course_input` describe, the course cut
to its 29 bytes. -/
def long_course_typed : Student :=
  ⟨bytes "AP00000000002" ++ [0],
    strncpy (bytes "Ravi" ++ [0]) 49 ++ [0], 21,
    List.replicate 29 'x'.toNat ++ [0],
    strncpy (bytes "Math,OS" ++ [0]) 99 ++ [0],
    ⟨0x41080000⟩, ⟨0x40000000⟩, 3⟩

/-- The record that `add_record` stores for `long_course_input`: the 45 bytes
of the course line that did not fit the buffer as subjects, GPA `0.0` read
from `Math,OS`, attendance `8.5`, year `2` read from `2.0`. -/
def long_course_stored : Student :=
  ⟨bytes "AP00000000002" ++ [0],
    strncpy (bytes "Ravi" ++ [0]) 49 ++ [0], 21,
    List.replicate 29 'x'.toNat ++ [0],
    strncpy (List.replicate 45 'x'.toNat ++ [0]) 99 ++ [0],
    ⟨0x00000000⟩, ⟨0x41080000⟩, 2⟩


/-! ## Validation: facts -/

theorem is_valid_admn_no_loop_bool (s : List Nat) (k i : Nat) :
    is_valid_admn_no_loop s i k = 1 ∨ is_valid_admn_no_loop s i k = 0 := by
  induction k generalizing i with
  | zero => left; rfl
  | succ k ih =>
    unfold is_valid_admn_no_loop
    by_cases h : isdigit (byte_at s i) = true
    · simp only [h, Bool.not_true, Bool.false_eq_true, if_false]
      exact ih (i + 1)
    · right; simp only [h, Bool.not_false, if_true]

theorem is_valid_admn_no_loop_eq_one (s : List Nat) (k i : Nat) :
    is_valid_admn_no_loop s i k = 1 ↔
      ∀ j, i ≤ j → j < i + k → isdigit (byte_at s j) = true := by
  induction k generalizing i with
  | zero =>
    constructor
    · intro _ j h1 h2; omega
    · intro _; rfl
  | succ k ih =>
    unfold is_valid_admn_no_loop
    by_cases h : isdigit (byte_at s i) = true
    · simp only [h, Bool.not_true, Bool.false_eq_true, if_false, ih (i + 1)]
      constructor
      · intro hk j h1 h2
        rcases Nat.eq_or_lt_of_le h1 with rfl | h3
        · exact h
        · exact hk j h3 (by omega)
      · intro hk j h1 h2
        exact hk j (by omega) (by omega)
    · simp only [h, Bool.not_false, if_true]
      constructor
      · intro h0; exact absurd h0 (by decide)
      · intro hk; exact absurd (hk i (Nat.le_refl i) (by omega)) h

theorem is_valid_admn_no_bool (s : List Nat) :
    is_valid_admn_no s = 1 ∨ is_valid_admn_no s = 0 := by
  unfold is_valid_admn_no
  split
  · right; rfl
  · split
    · right; rfl
    · exact is_valid_admn_no_loop_bool s 11 2

theorem is_valid_admn_no_eq_one (s : List Nat) :
    is_valid_admn_no s = 1 ↔
      strlen s = 13 ∧ byte_at s 0 = 'A'.toNat ∧ byte_at s 1 = 'P'.toNat ∧
        ∀ i, 2 ≤ i → i < 13 → isdigit (byte_at s i) = true := by
  unfold is_valid_admn_no
  simp only [show 'A'.toNat = 65 from rfl, show 'P'.toNat = 80 from rfl]
  by_cases h1 : strlen s = 13
  · by_cases h2 : byte_at s 0 = 65
    · by_cases h3 : byte_at s 1 = 80
      · simp only [h1, h2, h3, ne_eq, not_true_eq_false, if_false, or_self, true_and,
          is_valid_admn_no_loop_eq_one]
      · simp [h1, h2, h3]
    · simp [h1, h2]
  · simp [h1]

/-- C1: `is_valid_admn_no` returns 1 exactly for the strings of length 13 that
start with `A`, `P` and continue with eleven decimal digits, and 0 for every
other string; so it returns 0 whenever the length is not 13, 1 for
"AP12345678901", and 0 for "XP12345678901" and "AP1234567890A". -/
theorem C1_is_valid_admn_no (s : List Nat) :
    (is_valid_admn_no s = 1 ↔
      strlen s = 13 ∧ byte_at s 0 = 'A'.toNat ∧ byte_at s 1 = 'P'.toNat ∧
        ∀ i, 2 ≤ i → i < 13 → '0'.toNat ≤ byte_at s i ∧ byte_at s i ≤ '9'.toNat) ∧
    (is_valid_admn_no s ≠ 1 ↔ is_valid_admn_no s = 0) ∧
    (strlen s ≠ 13 → is_valid_admn_no s = 0) ∧
    is_valid_admn_no (bytes "AP12345678901" ++ [0]) = 1 ∧
    is_valid_admn_no (bytes "XP12345678901" ++ [0]) = 0 ∧
    is_valid_admn_no (bytes "AP1234567890A" ++ [0]) = 0 := by
  refine ⟨?_, ?_, ?_, by decide, by decide, by decide⟩
  · rw [is_valid_admn_no_eq_one]
    have hd : ∀ c : Nat, isdigit c = true ↔ '0'.toNat ≤ c ∧ c ≤ '9'.toNat := by
      intro c; simp [isdigit]
    simp only [hd]
  · rcases is_valid_admn_no_bool s with h | h
    · simp [h]
    · simp [h]
  · intro h
    simp [is_valid_admn_no, h]

/-! ## Slices of a flat byte array -/

theorem slice_append_left (o w : Nat) (X Y : List Nat) (h : o + w ≤ X.length) :
    ((X ++ Y).drop o).take w = (X.drop o).take w := by
  rw [List.drop_append_of_le_length (by omega)]
  apply List.take_append_of_le_length
  rw [List.length_drop]
  omega

theorem slice_take (o w n : Nat) (X : List Nat) (h : o + w ≤ n) :
    ((X.take n).drop o).take w = (X.drop o).take w := by
  rw [List.drop_take, List.take_take]
  congr 1
  omega


/-! ## Blocks of a flat byte array -/

theorem block_append_left (B i : Nat) (X Y : List Nat) (h : (i + 1) * B ≤ X.length) :
    ((X ++ Y).drop (i * B)).take B = (X.drop (i * B)).take B := by
  have h1 : i * B ≤ X.length := by
    have : i * B ≤ (i + 1) * B := Nat.mul_le_mul_right B (Nat.le_succ i)
    omega
  rw [List.drop_append_of_le_length h1]
  apply List.take_append_of_le_length
  rw [List.length_drop]
  have : (i + 1) * B = i * B + B := by ring
  omega

theorem block_take (B i n : Nat) (X : List Nat) (h : (i + 1) * B ≤ n) :
    ((X.take n).drop (i * B)).take B = (X.drop (i * B)).take B := by
  have h2 : (i + 1) * B = i * B + B := by ring
  rw [List.drop_take, List.take_take]
  congr 1
  omega

/-! ## Persistence: facts -/

theorem load_records_block (p : Platform) (st : Store) (data : List Nat) (i : Nat)
    (h : i < min (data.length / p.sizeof_Student) MAX_STUDENTS) :
    record_at p (load_records p (some data) st).records i =
      (data.drop (i * p.sizeof_Student)).take p.sizeof_Student := by
  have h1 : i + 1 ≤ data.length / p.sizeof_Student := by omega
  have h2 : i + 1 ≤ MAX_STUDENTS := by omega
  have h3 : (i + 1) * p.sizeof_Student ≤ data.length :=
    Nat.le_trans (Nat.mul_le_mul_right _ h1) (Nat.div_mul_le_self _ _)
  have h4 : (i + 1) * p.sizeof_Student ≤ MAX_STUDENTS * p.sizeof_Student :=
    Nat.mul_le_mul_right _ h2
  have h5 : (i + 1) * p.sizeof_Student ≤ min data.length (MAX_STUDENTS * p.sizeof_Student) := by
    omega
  show ((List.take _ data ++ _).drop _).take _ = _
  rw [block_append_left _ _ _ _ (by rw [List.length_take]; omega)]
  exact block_take _ _ _ _ h5

/-- C10: loading a file of `L` bytes sets `student_count` to
`min (L / sizeof(Student)) 100` and makes `records[i]`, for every `i` below that
count, the `i`-th block of the file (a trailing partial block and the bytes
beyond 100 blocks are not counted); an absent file gives `student_count = 0`;
so `student_count` is at most 100 after every load. -/
theorem C10_load_records (p : Platform) (st : Store) (data : List Nat) :
    (load_records p (some data) st).student_count =
        min (data.length / p.sizeof_Student) MAX_STUDENTS ∧
    (∀ i, i < (load_records p (some data) st).student_count →
      record_at p (load_records p (some data) st).records i =
        (data.drop (i * p.sizeof_Student)).take p.sizeof_Student) ∧
    (load_records p none st).student_count = 0 ∧
    (∀ stream, (load_records p stream st).student_count ≤ MAX_STUDENTS) := by
  refine ⟨rfl, ?_, rfl, ?_⟩
  · intro i hi
    exact load_records_block p st data i hi
  · intro stream
    cases stream with
    | none => exact Nat.zero_le _
    | some d => exact Nat.min_le_right _ _

/-- C6: after a `save_records` that could open the file, `load_records` into
any memory gives back the saved count and, block for block, the saved
records. -/
theorem C6_save_load_round_trip (p : Platform) (st st0 : Store) (disk : Option (List Nat))
    (hB : 0 < p.sizeof_Student) (hn : st.student_count ≤ MAX_STUDENTS)
    (hlen : st.records.length = MAX_STUDENTS * p.sizeof_Student) :
    (load_records p (save_records p true st disk) st0).student_count = st.student_count ∧
    ∀ i, i < st.student_count →
      record_at p (load_records p (save_records p true st disk) st0).records i =
        record_at p st.records i := by
  have hle : st.student_count * p.sizeof_Student ≤ st.records.length := by
    rw [hlen]; exact Nat.mul_le_mul_right _ hn
  have hL : (st.records.take (st.student_count * p.sizeof_Student)).length =
      st.student_count * p.sizeof_Student := by
    rw [List.length_take]; omega
  have hc : min ((st.records.take (st.student_count * p.sizeof_Student)).length /
      p.sizeof_Student) MAX_STUDENTS = st.student_count := by
    rw [hL, Nat.mul_div_cancel _ hB]; omega
  have hs : save_records p true st disk =
      some (st.records.take (st.student_count * p.sizeof_Student)) := rfl
  rw [hs]
  refine ⟨hc, ?_⟩
  intro i hi
  rw [load_records_block p st0 _ i (by rw [hc]; exact hi)]
  exact block_take _ _ _ _ (Nat.mul_le_mul_right _ hi)

/-- C5: with `student_count = 100` the call ends with the capacity error
whatever the input holds, reads nothing but the ENTER awaited by the pause, and
leaves the globals and the file as they were. -/
theorem C5_capacity_error (p : Platform) (wb_ok : Bool) (st : Store)
    (disk : Option (List Nat)) (stdin : List Nat) (h : st.student_count = MAX_STUDENTS) :
    (add_record p wb_ok st disk stdin).outcome = AddOutcome.capacity_error ∧
    (add_record p wb_ok st disk stdin).st = st ∧
    (add_record p wb_ok st disk stdin).disk = disk ∧
    (add_record p wb_ok st disk stdin).stdin = pause_and_clear stdin := by
  simp [add_record, h]


/-! ## C strings: facts -/

theorem strlen_eq_length_cstr (s : List Nat) : strlen s = (cstr s).length := by
  induction s with
  | nil => rfl
  | cons c s ih =>
    unfold strlen cstr
    by_cases h : c = 0
    · simp [h]
    · simp [h, ih]

theorem cstr_of_not_mem (q : List Nat) (h : 0 ∉ q) : cstr q = q := by
  induction q with
  | nil => rfl
  | cons c q ih =>
    have hc : c ≠ 0 := fun e => h (by simp [e])
    have hq : 0 ∉ q := fun e => h (List.mem_cons_of_mem _ e)
    simp [cstr, hc, ih hq]

theorem cstr_append_zero (q r : List Nat) (h : 0 ∉ q) : cstr (q ++ 0 :: r) = q := by
  induction q with
  | nil => simp [cstr]
  | cons c q ih =>
    have hc : c ≠ 0 := fun e => h (by simp [e])
    have hq : 0 ∉ q := fun e => h (List.mem_cons_of_mem _ e)
    simp [cstr, hc, ih hq]

theorem zero_not_mem_cstr (s : List Nat) : 0 ∉ cstr s := by
  induction s with
  | nil => simp [cstr]
  | cons c s ih =>
    unfold cstr
    by_cases h : c = 0
    · simp [h]
    · simp only [h, if_false, List.mem_cons, not_or]
      exact ⟨fun e => h e.symm, ih⟩

theorem cstr_cstr (s : List Nat) : cstr (cstr s) = cstr s :=
  cstr_of_not_mem _ (zero_not_mem_cstr s)

theorem byte_at_cstr (s : List Nat) (i : Nat) (h : i < strlen s) :
    byte_at (cstr s) i = byte_at s i := by
  induction s generalizing i with
  | nil => simp [strlen] at h
  | cons c s ih =>
    unfold strlen at h
    unfold cstr
    by_cases hc : c = 0
    · simp [hc] at h
    · simp only [hc, if_false] at h ⊢
      cases i with
      | zero => simp [byte_at]
      | succ i =>
        have := ih i (by omega)
        simpa [byte_at] using this

theorem strcmp_eq_zero_iff (a b : List Nat) : strcmp a b = 0 ↔ cstr a = cstr b := by
  induction a generalizing b with
  | nil =>
    cases b with
    | nil => simp [strcmp, cstr]
    | cons y t =>
      by_cases hy : y = 0
      · simp [strcmp, cstr, hy]
      · simp [strcmp, cstr, hy]
  | cons x s ih =>
    cases b with
    | nil =>
      by_cases hx : x = 0
      · simp [strcmp, cstr, hx]
      · simp [strcmp, cstr, hx]
    | cons y t =>
      unfold strcmp
      by_cases hxy : x = y
      · subst hxy
        by_cases hx : x = 0
        · simp [cstr, hx]
        · simp [cstr, hx, ih t]
      · have hne : (x : Int) - (y : Int) ≠ 0 := by omega
        simp only [ne_eq, hxy, not_false_eq_true, if_true, hne, false_iff]
        unfold cstr
        by_cases hx : x = 0
        · have hy : y ≠ 0 := fun e => hxy (by rw [hx, e])
          simp [hx, hy]
        · by_cases hy : y = 0
          · simp [hx, hy]
          · simp [hx, hy, hxy]

theorem is_valid_admn_no_cstr (s : List Nat) :
    is_valid_admn_no (cstr s) = is_valid_admn_no s := by
  have key : is_valid_admn_no (cstr s) = 1 ↔ is_valid_admn_no s = 1 := by
    rw [is_valid_admn_no_eq_one, is_valid_admn_no_eq_one, strlen_eq_length_cstr (cstr s),
      cstr_cstr, ← strlen_eq_length_cstr]
    constructor
    · rintro ⟨h1, h2, h3, h4⟩
      refine ⟨h1, ?_, ?_, ?_⟩
      · rw [← byte_at_cstr s 0 (by omega)]; exact h2
      · rw [← byte_at_cstr s 1 (by omega)]; exact h3
      · intro i a b; rw [← byte_at_cstr s i (by omega)]; exact h4 i a b
    · rintro ⟨h1, h2, h3, h4⟩
      refine ⟨h1, ?_, ?_, ?_⟩
      · rw [byte_at_cstr s 0 (by omega)]; exact h2
      · rw [byte_at_cstr s 1 (by omega)]; exact h3
      · intro i a b; rw [byte_at_cstr s i (by omega)]; exact h4 i a b
  rcases is_valid_admn_no_bool (cstr s) with h | h <;>
    rcases is_valid_admn_no_bool s with h' | h'
  · rw [h, h']
  · rw [key] at h; rw [h] at h'; exact absurd h' (by decide)
  · rw [← key] at h'; rw [h'] at h; exact absurd h (by decide)
  · rw [h, h']

theorem is_valid_admn_no_congr (a b : List Nat) (h : cstr a = cstr b) :
    is_valid_admn_no a = is_valid_admn_no b := by
  rw [← is_valid_admn_no_cstr a, ← is_valid_admn_no_cstr b, h]

/-- A valid admission number without an embedded terminator has 13 bytes, none
of them a newline. -/
theorem valid_key_shape (q : List Nat) (hq : is_valid_admn_no q = 1) (h0 : 0 ∉ q) :
    q.length = 13 ∧ 10 ∉ q := by
  rw [is_valid_admn_no_eq_one] at hq
  obtain ⟨h1, h2, h3, h4⟩ := hq
  have hl : q.length = 13 := by
    rw [strlen_eq_length_cstr, cstr_of_not_mem q h0] at h1; exact h1
  refine ⟨hl, ?_⟩
  intro hm
  obtain ⟨i, hi, he⟩ := List.getElem_of_mem hm
  have hb : byte_at q i = 10 := by
    simp [byte_at, List.getD_eq_getElem?_getD, List.getElem?_eq_getElem hi, he]
  rcases Nat.lt_or_ge i 2 with h | h
  · rcases Nat.lt_or_ge i 1 with h' | h'
    · have : i = 0 := by omega
      subst this; rw [hb] at h2; exact absurd h2 (by decide)
    · have : i = 1 := by omega
      subst this; rw [hb] at h3; exact absurd h3 (by decide)
  · have := h4 i h (by omega)
    rw [hb] at this; exact absurd this (by decide)


/-! ## Reading a line: facts -/

theorem fgets_chars_line (k : Nat) (q rest : List Nat) (h10 : 10 ∉ q) (hk : q.length < k) :
    fgets_chars k (q ++ 10 :: rest) = (q ++ [10], rest) := by
  induction q generalizing k with
  | nil =>
    cases k with
    | zero => simp at hk
    | succ k => simp [fgets_chars]
  | cons c q ih =>
    have hc : c ≠ 10 := fun e => h10 (by simp [e])
    have hq : 10 ∉ q := fun e => h10 (List.mem_cons_of_mem _ e)
    cases k with
    | zero => simp at hk
    | succ k =>
      have hk' : q.length < k := by simpa using hk
      simp [fgets_chars, hc, ih k hq hk']

theorem fgets_chars_full (q rest : List Nat) (h10 : 10 ∉ q) :
    fgets_chars q.length (q ++ rest) = (q, rest) := by
  induction q with
  | nil => simp [fgets_chars]
  | cons c q ih =>
    have hc : c ≠ 10 := fun e => h10 (by simp [e])
    have hq : 10 ∉ q := fun e => h10 (List.mem_cons_of_mem _ e)
    simp [fgets_chars, hc, ih hq]

theorem strcspn_stop (q r : List Nat) (c : Nat) (reject : List Nat)
    (hq : ∀ x ∈ q, x ≠ 0 ∧ x ∉ reject) (hc : c = 0 ∨ c ∈ reject) :
    strcspn (q ++ c :: r) reject = q.length := by
  induction q with
  | nil => simp [strcspn, hc]
  | cons x q ih =>
    have hx := hq x (by simp)
    have hx' : ¬(x = 0 ∨ x ∈ reject) := by tauto
    have := ih (fun y hy => hq y (List.mem_cons_of_mem _ hy))
    simp [strcspn, hx', this]

theorem cstr_strip_newline_line (q r : List Nat) (h0 : 0 ∉ q) (h10 : 10 ∉ q) :
    cstr (strip_newline (q ++ 10 :: r)) = q := by
  have hs : strcspn (q ++ 10 :: r) [10] = q.length :=
    strcspn_stop q r 10 [10]
      (fun x hx => ⟨fun e => h0 (e ▸ hx), fun e => h10 (by simp at e; exact e ▸ hx)⟩)
      (Or.inr (by simp))
  unfold strip_newline
  rw [hs, List.set_append_right _ _ (Nat.le_refl _)]
  simp only [Nat.sub_self, List.set_cons_zero]
  exact cstr_append_zero q r h0

theorem cstr_strip_newline_full (q r : List Nat) (h0 : 0 ∉ q) (h10 : 10 ∉ q) :
    cstr (strip_newline (q ++ 0 :: r)) = q := by
  have hs : strcspn (q ++ 0 :: r) [10] = q.length :=
    strcspn_stop q r 0 [10]
      (fun x hx => ⟨fun e => h0 (e ▸ hx), fun e => h10 (by simp at e; exact e ▸ hx)⟩)
      (Or.inl rfl)
  unfold strip_newline
  rw [hs, List.set_append_right _ _ (Nat.le_refl _)]
  simp only [Nat.sub_self, List.set_cons_zero]
  exact cstr_append_zero q r h0

theorem strncpy_eq (s : List Nat) (n : Nat) :
    strncpy s n = (cstr s).take n ++ List.replicate (n - (cstr s).length) 0 := by
  induction n generalizing s with
  | zero => simp [strncpy]
  | succ n ih =>
    cases s with
    | nil =>
      have := ih []
      simp only [cstr, List.take_nil, List.length_nil, Nat.sub_zero, List.nil_append] at this ⊢
      simp [strncpy, this, List.replicate_succ]
    | cons c s =>
      unfold strncpy cstr
      by_cases hc : c = 0
      · simp [hc]
      · simp [hc, ih s]

theorem strncpy_length (s : List Nat) (n : Nat) : (strncpy s n).length = n := by
  rw [strncpy_eq]
  simp only [List.length_append, List.length_take, List.length_replicate]
  omega

theorem strncpy_congr (a b : List Nat) (n : Nat) (h : cstr a = cstr b) :
    strncpy a n = strncpy b n := by
  rw [strncpy_eq, strncpy_eq, h]

/-- The string left in the buffer after a typed line was read and its newline
removed: the line, up to its first `0` byte if it has one. -/
theorem cstr_strip_newline_typed (l r : List Nat) (h10 : 10 ∉ l) :
    cstr (strip_newline (l ++ 10 :: r)) = cstr l := by
  induction l with
  | nil => simp [strip_newline, strcspn, cstr]
  | cons c l ih =>
    have hc : c ≠ 10 := fun e => h10 (by simp [e])
    have hl : 10 ∉ l := fun e => h10 (List.mem_cons_of_mem _ e)
    have ih' := ih hl
    unfold strip_newline at ih' ⊢
    by_cases h0 : c = 0
    · simp [strcspn, cstr, h0]
    · simp [strcspn, cstr, h0, hc, ih']

/-- The 13 bytes `strncpy` copies from a buffer that holds a 13-byte string. -/
theorem strncpy_key (s q : List Nat) (h : cstr s = q) (hl : q.length = 13) :
    strncpy s 13 = q := by
  rw [strncpy_eq, h, hl]
  simp [← hl]

theorem fgets_line (q rest : List Nat) (h10 : 10 ∉ q) (hk : q.length < 255) :
    fgets 256 (q ++ 10 :: rest) = some (q ++ [10, 0], rest) := by
  have := fgets_chars_line 255 q rest h10 hk
  cases q with
  | nil => simp [fgets, fgets_chars]
  | cons c q =>
    simp only [List.cons_append] at this ⊢
    simp [fgets, this]

/-! ## The scan for an admission number: facts -/

theorem find_range (P : Nat → Bool) (n : Nat) :
    (∃ i, i < n ∧ P i = true ∧ (∀ j, j < i → P j = false) ∧
        (List.range n).find? P = some i) ∨
      ((∀ j, j < n → P j = false) ∧ (List.range n).find? P = none) := by
  induction n with
  | zero => right; simp
  | succ n ih =>
    rw [List.range_succ, List.find?_append]
    rcases ih with ⟨i, hi, hp, hlt, hf⟩ | ⟨hall, hf⟩
    · left
      exact ⟨i, by omega, hp, hlt, by simp [hf]⟩
    · by_cases hn : P n = true
      · left
        exact ⟨n, by omega, hn, hall, by simp [hf, hn]⟩
      · right
        have hn' : P n = false := by simpa using hn
        refine ⟨?_, by simp [hf, hn']⟩
        intro j hj
        rcases Nat.lt_or_ge j n with h | h
        · exact hall j h
        · have : j = n := by omega
          rw [this]; exact hn'

theorem find_admn_no_spec (p : Platform) (st : Store) (key : List Nat) :
    (∃ i, i < st.student_count ∧ admn_no_at p st.records i = cstr key ∧
        (∀ j, j < i → admn_no_at p st.records j ≠ cstr key) ∧
        find_admn_no p st key = some i) ∨
      ((∀ j, j < st.student_count → admn_no_at p st.records j ≠ cstr key) ∧
        find_admn_no p st key = none) := by
  have hP : ∀ i, (strcmp (admn_no_ptr p st.records i) key == 0) = true ↔
      admn_no_at p st.records i = cstr key := by
    intro i
    rw [beq_iff_eq, strcmp_eq_zero_iff]
    rfl
  have hP' : ∀ i, (strcmp (admn_no_ptr p st.records i) key == 0) = false ↔
      admn_no_at p st.records i ≠ cstr key := by
    intro i
    rw [Ne, ← hP i, Bool.not_eq_true]
  rcases find_range (fun i => strcmp (admn_no_ptr p st.records i) key == 0)
      st.student_count with ⟨i, hi, hp, hlt, hf⟩ | ⟨hall, hf⟩
  · left
    exact ⟨i, hi, (hP i).1 hp, fun j hj => (hP' j).1 (hlt j hj), hf⟩
  · right
    exact ⟨fun j hj => (hP' j).1 (hall j hj), hf⟩


/-! ## `search_record` and the duplicate check of `add_record` -/

theorem search_record_st (p : Platform) (st : Store) (stdin : List Nat) :
    (search_record p st stdin).st = st := by
  unfold search_record
  split
  · rfl
  · dsimp only
    split
    · rfl
    · split <;> rfl

theorem fgets_14_key (q rest : List Nat) (hl : q.length = 13) (h10 : 10 ∉ q) :
    fgets 14 (q ++ 10 :: rest) = some (q ++ [0], 10 :: rest) := by
  have h := fgets_chars_full q (10 :: rest) h10
  rw [hl] at h
  cases q with
  | nil => simp at hl
  | cons c q =>
    simp only [List.cons_append] at h ⊢
    simp [fgets, h]

/-- C7, amended: when the operator enters a valid admission number `q`,
`search_record` reports the record at the lowest index below `student_count`
whose `admn_no` is `q`, and reports not-found when there is none; so a record
that is the only one stored under `q` is the one reported; whatever is entered,
the globals are left as they were. -/
theorem C7_search_record (p : Platform) (st : Store) (q rest : List Nat)
    (hq : is_valid_admn_no q = 1) (h0 : 0 ∉ q) :
    ((∃ i, i < st.student_count ∧ admn_no_at p st.records i = q ∧
        (∀ j, j < i → admn_no_at p st.records j ≠ q) ∧
        (search_record p st (q ++ 10 :: rest)).outcome = SearchOutcome.found i) ∨
      ((∀ j, j < st.student_count → admn_no_at p st.records j ≠ q) ∧
        (search_record p st (q ++ 10 :: rest)).outcome = SearchOutcome.not_found)) ∧
    (∀ i, i < st.student_count → admn_no_at p st.records i = q →
      (∀ j, j < st.student_count → admn_no_at p st.records j = q → j = i) →
      (search_record p st (q ++ 10 :: rest)).outcome = SearchOutcome.found i) ∧
    (∀ stdin, (search_record p st stdin).st = st) := by
  suffices main : (∃ i, i < st.student_count ∧ admn_no_at p st.records i = q ∧
        (∀ j, j < i → admn_no_at p st.records j ≠ q) ∧
        (search_record p st (q ++ 10 :: rest)).outcome = SearchOutcome.found i) ∨
      ((∀ j, j < st.student_count → admn_no_at p st.records j ≠ q) ∧
        (search_record p st (q ++ 10 :: rest)).outcome = SearchOutcome.not_found) by
    refine ⟨main, ?_, search_record_st p st⟩
    intro i hi he huniq
    rcases main with ⟨i0, hi0, he0, _, ho⟩ | ⟨hall, _⟩
    · rw [← huniq i0 hi0 he0]; exact ho
    · exact absurd he (hall i hi)
  obtain ⟨hl, h10⟩ := valid_key_shape q hq h0
  have hc : cstr (strip_newline (q ++ [0])) = q := cstr_strip_newline_full q [] h0 h10
  have hv : is_valid_admn_no (strip_newline (q ++ [0])) = 1 := by
    rw [is_valid_admn_no_congr _ q (by rw [hc, cstr_of_not_mem q h0])]; exact hq
  unfold search_record
  rw [fgets_14_key q rest hl h10]
  simp only [hv, Nat.succ_ne_zero, if_false]
  rcases find_admn_no_spec p st (strip_newline (q ++ [0])) with
    ⟨i, hi, he, hlt, hf⟩ | ⟨hall, hf⟩
  · left
    rw [hc] at he hlt
    exact ⟨i, hi, he, hlt, by rw [hf]⟩
  · right
    rw [hc] at hall
    exact ⟨hall, by rw [hf]⟩

/-- The buffer `add_record` validates after a valid admission number was
entered: the number itself, terminated. -/
theorem add_record_key (q : List Nat) (hq : is_valid_admn_no q = 1) (h0 : 0 ∉ q) :
    strncpy (strip_newline (q ++ [10, 0])) 13 ++ [0] = q ++ [0] ∧
      is_valid_admn_no (q ++ [0]) = 1 ∧ cstr (q ++ [0]) = q := by
  obtain ⟨hl, h10⟩ := valid_key_shape q hq h0
  have hc : cstr (strip_newline (q ++ [10, 0])) = q := cstr_strip_newline_line q [0] h0 h10
  have hz : cstr (q ++ [0]) = q := cstr_append_zero q [] h0
  refine ⟨by rw [strncpy_key _ q hc hl], ?_, hz⟩
  rw [is_valid_admn_no_congr _ q (by rw [hz, cstr_of_not_mem q h0])]; exact hq

/-- C2, amended: with fewer than 100 records, entering a valid admission number
that is the `admn_no` of a stored record ends `add_record` with the duplicate
error, whatever input follows, and leaves the globals and the file as they
were. -/
theorem C2_duplicate_error (p : Platform) (wb_ok : Bool) (st : Store)
    (disk : Option (List Nat)) (q rest : List Nat)
    (hn : st.student_count < MAX_STUDENTS)
    (hq : is_valid_admn_no q = 1) (h0 : 0 ∉ q)
    (hdup : ∃ i, i < st.student_count ∧ admn_no_at p st.records i = q) :
    (add_record p wb_ok st disk (q ++ 10 :: rest)).outcome = AddOutcome.duplicate_error ∧
    (add_record p wb_ok st disk (q ++ 10 :: rest)).st = st ∧
    (add_record p wb_ok st disk (q ++ 10 :: rest)).disk = disk ∧
    (add_record p wb_ok st disk (q ++ 10 :: rest)).stdin = pause_and_clear rest := by
  obtain ⟨hl, h10⟩ := valid_key_shape q hq h0
  obtain ⟨hk, hv, hz⟩ := add_record_key q hq h0
  have hfind : (find_admn_no p st (q ++ [0])).isSome = true := by
    rcases find_admn_no_spec p st (q ++ [0]) with ⟨i, _, _, _, hf⟩ | ⟨hall, _⟩
    · rw [hf]; rfl
    · obtain ⟨i, hi, he⟩ := hdup
      rw [hz] at hall
      exact absurd he (hall i hi)
  have hcap : ¬ st.student_count ≥ MAX_STUDENTS := by omega
  unfold add_record
  rw [if_neg hcap, fgets_line q rest h10 (by omega)]
  simp only [hk, hv, hfind, Nat.succ_ne_zero, if_false, if_true, and_self]


/-! ## `add_record`: the successful path -/

theorem prompt_loop_accept {α : Type} (parse : List Nat → α) (reject : α → Bool)
    (fuel : Nat) (stdin buffer rest : List Nat)
    (h : fgets 256 stdin = some (buffer, rest)) (hr : reject (parse buffer) = false) :
    prompt_loop parse reject (fuel + 1) stdin = some (parse buffer, rest) := by
  simp [prompt_loop, h, hr]

theorem F32.not_lt_of_le (a b : F32) (h : F32.le a b = true) : F32.lt b a = false := by
  simp only [F32.le, Bool.and_eq_true, Bool.not_eq_true', decide_eq_true_eq] at h
  simp only [F32.lt, Bool.and_eq_false_imp, Bool.not_eq_true', decide_eq_false_iff_not]
  intro _ _
  omega

theorem store_record_length (p : Platform) (records : List Nat) (n : Nat) (s : Student)
    (hs : (p.repr s).length = p.sizeof_Student)
    (hlen : (n + 1) * p.sizeof_Student ≤ records.length) :
    (store_record p records n s).length = records.length := by
  have h1 : (n + 1) * p.sizeof_Student = n * p.sizeof_Student + p.sizeof_Student := by ring
  simp only [store_record, List.length_append, List.length_take, List.length_drop, hs]
  omega

theorem store_record_below (p : Platform) (records : List Nat) (n i : Nat) (s : Student)
    (hi : i < n) (hlen : n * p.sizeof_Student ≤ records.length) :
    record_at p (store_record p records n s) i = record_at p records i := by
  have h1 : (i + 1) * p.sizeof_Student ≤ n * p.sizeof_Student :=
    Nat.mul_le_mul_right _ hi
  unfold record_at store_record
  rw [List.append_assoc, block_append_left _ _ _ _ (by rw [List.length_take]; omega)]
  exact block_take _ _ _ _ h1

theorem store_record_ptr (p : Platform) (records : List Nat) (n : Nat) (s : Student)
    (hlen : n * p.sizeof_Student ≤ records.length) :
    admn_no_ptr p (store_record p records n s) n =
      p.repr s ++ records.drop ((n + 1) * p.sizeof_Student) := by
  unfold admn_no_ptr store_record
  rw [List.append_assoc, List.drop_append_of_le_length (by rw [List.length_take]; omega)]
  rw [List.drop_eq_nil_of_le (by rw [List.length_take]; omega)]
  rfl

theorem store_record_at (p : Platform) (records : List Nat) (n : Nat) (s : Student)
    (hs : (p.repr s).length = p.sizeof_Student)
    (hlen : n * p.sizeof_Student ≤ records.length) :
    record_at p (store_record p records n s) n = p.repr s := by
  have h := store_record_ptr p records n s hlen
  unfold admn_no_ptr at h
  unfold record_at
  rw [h, ← hs, List.take_left]

theorem cstr_of_take_14 (X Y q : List Nat) (h : X.take 14 = q ++ [0]) (h0 : 0 ∉ q) :
    cstr (X ++ Y) = q := by
  have hX : X = q ++ 0 :: X.drop 14 := by
    conv_lhs => rw [← List.take_append_drop 14 X, h]
    simp
  rw [hX, List.append_assoc, List.cons_append]
  exact cstr_append_zero q _ h0

/-- The successful path of `add_record`, on the buffers its `fgets` calls
fill: with fewer than 100 records, a valid admission number that no stored
record has and, at each later prompt, a first buffer that passes the check of
that prompt, `student_count` grows by one, the records below the old count keep
their bytes, and the next slot holds the record built from those buffers. -/
theorem add_record_appends_buffers (p : Platform) (wb_ok : Bool) (st : Store)
    (disk : Option (List Nat))
    (q name_buf age_buf course_buf subjects_buf gpa_buf att_buf year_buf : List Nat)
    (in1 in2 in3 in4 in5 in6 in7 in8 : List Nat)
    (hp : p.layout_ok)
    (hlen : st.records.length = MAX_STUDENTS * p.sizeof_Student)
    (hn : st.student_count < MAX_STUDENTS)
    (hq : is_valid_admn_no q = 1) (h0 : 0 ∉ q)
    (hnew : ∀ i, i < st.student_count → admn_no_at p st.records i ≠ q)
    (h2 : fgets 256 in1 = some (name_buf, in2))
    (h3 : fgets 256 in2 = some (age_buf, in3))
    (hage : 16 ≤ p.atoi age_buf ∧ p.atoi age_buf ≤ 99)
    (h4 : fgets 256 in3 = some (course_buf, in4))
    (h5 : fgets 256 in4 = some (subjects_buf, in5))
    (h6 : fgets 256 in5 = some (gpa_buf, in6))
    (hgpa : F32.le F32.zero (p.atof gpa_buf) = true ∧ F32.le (p.atof gpa_buf) F32.ten = true)
    (h7 : fgets 256 in6 = some (att_buf, in7))
    (hatt : F32.le F32.zero (p.atof att_buf) = true ∧
      F32.le (p.atof att_buf) F32.hundred = true)
    (h8 : fgets 256 in7 = some (year_buf, in8))
    (hyear : 1 ≤ p.atoi year_buf ∧ p.atoi year_buf ≤ 4) :
    (add_record p wb_ok st disk (q ++ 10 :: in1)).outcome = AddOutcome.added ∧
    (add_record p wb_ok st disk (q ++ 10 :: in1)).st.student_count = st.student_count + 1 ∧
    (∀ i, i < st.student_count →
      record_at p (add_record p wb_ok st disk (q ++ 10 :: in1)).st.records i =
        record_at p st.records i) ∧
    record_at p (add_record p wb_ok st disk (q ++ 10 :: in1)).st.records st.student_count =
      p.repr ⟨q ++ [0],
        strncpy (strip_newline name_buf) (MAX_NAME_LEN - 1) ++ [0],
        p.atoi age_buf,
        strncpy (strip_newline course_buf) (MAX_COURSE_LEN - 1) ++ [0],
        strncpy (strip_newline subjects_buf) (MAX_SUBJECTS_LEN - 1) ++ [0],
        p.atof gpa_buf, p.atof att_buf, p.atoi year_buf⟩ ∧
    admn_no_at p (add_record p wb_ok st disk (q ++ 10 :: in1)).st.records st.student_count =
      q := by
  obtain ⟨hl, h10⟩ := valid_key_shape q hq h0
  obtain ⟨hk, hv, hz⟩ := add_record_key q hq h0
  have hfind : (find_admn_no p st (q ++ [0])).isSome = false := by
    rcases find_admn_no_spec p st (q ++ [0]) with ⟨i, hi, he, _, _⟩ | ⟨_, hf⟩
    · rw [hz] at he
      exact absurd he (hnew i hi)
    · rw [hf]; rfl
  have hcap : ¬ st.student_count ≥ MAX_STUDENTS := by omega
  have hle : (st.student_count + 1) * p.sizeof_Student ≤ st.records.length := by
    rw [hlen]; exact Nat.mul_le_mul_right _ hn
  have hle' : st.student_count * p.sizeof_Student ≤ st.records.length := by
    have : st.student_count * p.sizeof_Student ≤ (st.student_count + 1) * p.sizeof_Student :=
      Nat.mul_le_mul_right _ (Nat.le_succ _)
    omega
  have rage : (decide (p.atoi age_buf < 16) || decide (p.atoi age_buf > 99)) = false := by
    simp only [Bool.or_eq_false_iff, decide_eq_false_iff_not]; omega
  have ryear : (decide (p.atoi year_buf < 1) || decide (p.atoi year_buf > 4)) = false := by
    simp only [Bool.or_eq_false_iff, decide_eq_false_iff_not]; omega
  have rgpa : ((p.atof gpa_buf).lt F32.zero || F32.ten.lt (p.atof gpa_buf)) = false := by
    rw [F32.not_lt_of_le _ _ hgpa.1, F32.not_lt_of_le _ _ hgpa.2]; rfl
  have ratt : ((p.atof att_buf).lt F32.zero || F32.hundred.lt (p.atof att_buf)) = false := by
    rw [F32.not_lt_of_le _ _ hatt.1, F32.not_lt_of_le _ _ hatt.2]; rfl
  have hread : read_student p (q ++ [0]) in1 = some (⟨q ++ [0],
        strncpy (strip_newline name_buf) (MAX_NAME_LEN - 1) ++ [0],
        p.atoi age_buf,
        strncpy (strip_newline course_buf) (MAX_COURSE_LEN - 1) ++ [0],
        strncpy (strip_newline subjects_buf) (MAX_SUBJECTS_LEN - 1) ++ [0],
        p.atof gpa_buf, p.atof att_buf, p.atoi year_buf⟩, in8) := by
    unfold read_student
    simp only [h2, h4, h5,
      prompt_loop_accept p.atoi (fun v => decide (v < 16) || decide (v > 99))
        in2.length in2 age_buf in3 h3 rage,
      prompt_loop_accept p.atof (fun v => v.lt F32.zero || F32.ten.lt v)
        in5.length in5 gpa_buf in6 h6 rgpa,
      prompt_loop_accept p.atof (fun v => v.lt F32.zero || F32.hundred.lt v)
        in6.length in6 att_buf in7 h7 ratt,
      prompt_loop_accept p.atoi (fun v => decide (v < 1) || decide (v > 4))
        in7.length in7 year_buf in8 h8 ryear]
  have hrepr := hp ⟨q ++ [0],
        strncpy (strip_newline name_buf) (MAX_NAME_LEN - 1) ++ [0],
        p.atoi age_buf,
        strncpy (strip_newline course_buf) (MAX_COURSE_LEN - 1) ++ [0],
        strncpy (strip_newline subjects_buf) (MAX_SUBJECTS_LEN - 1) ++ [0],
        p.atof gpa_buf, p.atof att_buf, p.atoi year_buf⟩
  have hres : ∀ r : AddResult, r = add_record p wb_ok st disk (q ++ 10 :: in1) →
      r.outcome = AddOutcome.added ∧
      r.st = ⟨st.student_count + 1, store_record p st.records st.student_count ⟨q ++ [0],
        strncpy (strip_newline name_buf) (MAX_NAME_LEN - 1) ++ [0],
        p.atoi age_buf,
        strncpy (strip_newline course_buf) (MAX_COURSE_LEN - 1) ++ [0],
        strncpy (strip_newline subjects_buf) (MAX_SUBJECTS_LEN - 1) ++ [0],
        p.atof gpa_buf, p.atof att_buf, p.atoi year_buf⟩⟩ := by
    intro r hr
    unfold add_record at hr
    rw [if_neg hcap, fgets_line q in1 h10 (by omega)] at hr
    simp only [hk, hv, hfind, hread, Nat.succ_ne_zero, if_false, Bool.false_eq_true] at hr
    split at hr <;> (subst hr; exact ⟨rfl, rfl⟩)
  obtain ⟨ho, hst⟩ := hres _ rfl
  refine ⟨ho, by rw [hst], ?_, ?_, ?_⟩
  · intro i hi
    rw [hst]
    exact store_record_below p st.records _ i _ hi hle'
  · rw [hst]
    exact store_record_at p st.records _ _ hrepr.1 hle'
  · rw [hst]
    show cstr (admn_no_ptr p (store_record p st.records st.student_count _) st.student_count) = q
    rw [store_record_ptr p st.records _ _ hle']
    exact cstr_of_take_14 _ _ q (hrepr.2 (by simp [hl])) h0


/-- The successful path of `add_record`, on the lines typed: with fewer than
100 records, a valid admission number that no stored record has, followed by a
name line, an age line in 16..99, a course line, a subjects line, a GPA line in
0.0..10.0, an attendance line in 0.0..100.0 and a year line in 1..4, every line
shorter than 255 bytes, `student_count` grows by one, the records below the old
count keep their bytes, and the next slot holds the record built from the lines
typed, text cut to the size of its member. -/
theorem add_record_appends_short_lines (p : Platform) (wb_ok : Bool) (st : Store)
    (disk : Option (List Nat))
    (q name age course subjects gpa att year rest : List Nat)
    (hp : p.layout_ok)
    (hlen : st.records.length = MAX_STUDENTS * p.sizeof_Student)
    (hn : st.student_count < MAX_STUDENTS)
    (hq : is_valid_admn_no q = 1) (h0 : 0 ∉ q)
    (hnew : ∀ i, i < st.student_count → admn_no_at p st.records i ≠ q)
    (lname : 10 ∉ name ∧ name.length < 255)
    (lage : 10 ∉ age ∧ age.length < 255)
    (lcourse : 10 ∉ course ∧ course.length < 255)
    (lsubjects : 10 ∉ subjects ∧ subjects.length < 255)
    (lgpa : 10 ∉ gpa ∧ gpa.length < 255)
    (latt : 10 ∉ att ∧ att.length < 255)
    (lyear : 10 ∉ year ∧ year.length < 255)
    (hage : 16 ≤ p.atoi (age ++ [10, 0]) ∧ p.atoi (age ++ [10, 0]) ≤ 99)
    (hgpa : F32.le F32.zero (p.atof (gpa ++ [10, 0])) = true ∧
      F32.le (p.atof (gpa ++ [10, 0])) F32.ten = true)
    (hatt : F32.le F32.zero (p.atof (att ++ [10, 0])) = true ∧
      F32.le (p.atof (att ++ [10, 0])) F32.hundred = true)
    (hyear : 1 ≤ p.atoi (year ++ [10, 0]) ∧ p.atoi (year ++ [10, 0]) ≤ 4) :
    (add_record p wb_ok st disk
      (typed_entry q name age course subjects gpa att year rest)).outcome =
        AddOutcome.added ∧
    (add_record p wb_ok st disk
      (typed_entry q name age course subjects gpa att year rest)).st.student_count =
        st.student_count + 1 ∧
    (∀ i, i < st.student_count →
      record_at p (add_record p wb_ok st disk
        (typed_entry q name age course subjects gpa att year rest)).st.records i =
          record_at p st.records i) ∧
    record_at p (add_record p wb_ok st disk
        (typed_entry q name age course subjects gpa att year rest)).st.records
          st.student_count =
      p.repr ⟨q ++ [0],
        strncpy name (MAX_NAME_LEN - 1) ++ [0],
        p.atoi (age ++ [10, 0]),
        strncpy course (MAX_COURSE_LEN - 1) ++ [0],
        strncpy subjects (MAX_SUBJECTS_LEN - 1) ++ [0],
        p.atof (gpa ++ [10, 0]), p.atof (att ++ [10, 0]), p.atoi (year ++ [10, 0])⟩ ∧
    admn_no_at p (add_record p wb_ok st disk
        (typed_entry q name age course subjects gpa att year rest)).st.records
          st.student_count = q := by
  unfold typed_entry
  have h := add_record_appends_buffers p wb_ok st disk q
    (name ++ [10, 0]) (age ++ [10, 0]) (course ++ [10, 0]) (subjects ++ [10, 0])
    (gpa ++ [10, 0]) (att ++ [10, 0]) (year ++ [10, 0])
    _ _ _ _ _ _ _ rest hp hlen hn hq h0 hnew
    (fgets_line name _ lname.1 lname.2)
    (fgets_line age _ lage.1 lage.2) hage
    (fgets_line course _ lcourse.1 lcourse.2)
    (fgets_line subjects _ lsubjects.1 lsubjects.2)
    (fgets_line gpa _ lgpa.1 lgpa.2) hgpa
    (fgets_line att _ latt.1 latt.2) hatt
    (fgets_line year _ lyear.1 lyear.2) hyear
  rw [strncpy_congr _ name _ (cstr_strip_newline_typed name [0] lname.1),
    strncpy_congr _ course _ (cstr_strip_newline_typed course [0] lcourse.1),
    strncpy_congr _ subjects _ (cstr_strip_newline_typed subjects [0] lsubjects.1)] at h
  exact h

/-! ## `add_record`: every path -/

theorem read_student_admn_no (p : Platform) (k stdin : List Nat) (s : Student)
    (rest : List Nat) (h : read_student p k stdin = some (s, rest)) : s.admn_no = k := by
  unfold read_student at h
  repeat' split at h
  all_goals first
    | contradiction
    | (simp only [Option.some.injEq, Prod.mk.injEq] at h; rw [← h.1])

theorem add_record_cases (p : Platform) (wb_ok : Bool) (st : Store)
    (disk : Option (List Nat)) (stdin : List Nat) :
    ((add_record p wb_ok st disk stdin).st = st ∧
        (add_record p wb_ok st disk stdin).disk = disk) ∨
      ∃ s : Student, st.student_count < MAX_STUDENTS ∧
        is_valid_admn_no s.admn_no = 1 ∧
        (∃ b, s.admn_no = strncpy b 13 ++ [0]) ∧
        find_admn_no p st s.admn_no = none ∧
        (add_record p wb_ok st disk stdin).st =
          ⟨st.student_count + 1, store_record p st.records st.student_count s⟩ ∧
        ((add_record p wb_ok st disk stdin).disk = disk ∨
          (add_record p wb_ok st disk stdin).disk =
            save_records p wb_ok
              ⟨st.student_count + 1, store_record p st.records st.student_count s⟩ disk) := by
  unfold add_record
  split
  · left; exact ⟨rfl, rfl⟩
  · rename_i hcap
    split
    · left; exact ⟨rfl, rfl⟩
    · rename_i buffer in1 _
      dsimp only
      split
      · left; exact ⟨rfl, rfl⟩
      · rename_i hv
        split
        · left; exact ⟨rfl, rfl⟩
        · rename_i hf
          split
          · left; exact ⟨rfl, rfl⟩
          · rename_i s in8 hread
            right
            have hk := read_student_admn_no p _ _ _ _ hread
            refine ⟨s, by omega, ?_, ⟨_, hk⟩, ?_, ?_⟩
            · rw [hk]
              rcases is_valid_admn_no_bool (strncpy (strip_newline buffer) 13 ++ [0]) with h | h
              · exact h
              · exact absurd h hv
            · rw [hk]
              cases hfind : find_admn_no p st (strncpy (strip_newline buffer) 13 ++ [0]) with
              | none => rfl
              | some i => rw [hfind] at hf; exact absurd rfl hf
            · split
              · exact ⟨rfl, Or.inl rfl⟩
              · refine ⟨rfl, ?_⟩
                dsimp only
                split
                · right; rfl
                · left; rfl


/-! ## The uniqueness invariant -/

theorem layout_ok_sizeof (p : Platform) (hp : p.layout_ok) : 14 ≤ p.sizeof_Student := by
  have h := hp ⟨List.replicate 14 0, [], 0, [], [], ⟨0⟩, ⟨0⟩, 0⟩
  have h2 := h.2 (by simp)
  have h3 : ((p.repr ⟨List.replicate 14 0, [], 0, [], [], ⟨0⟩, ⟨0⟩, 0⟩).take 14).length = 14 := by
    rw [h2]; simp
  rw [List.length_take, h.1] at h3
  omega

theorem keys_ok_congr (p : Platform) (bs bs' : List Nat) (n : Nat)
    (h : ∀ i, i < n → key_field p bs' i = key_field p bs i) (hk : keys_ok p bs n) :
    keys_ok p bs' n := by
  refine ⟨?_, ?_⟩
  · intro i hi
    rw [h i hi]
    exact hk.1 i hi
  · intro i j hi hj he
    rw [h i hi, h j hj] at he
    exact hk.2 i j hi hj he

theorem keys_ok_zero (p : Platform) (bs : List Nat) : keys_ok p bs 0 :=
  ⟨fun _ hi => absurd hi (Nat.not_lt_zero _), fun _ _ hi => absurd hi (Nat.not_lt_zero _)⟩

theorem admn_no_at_of_key_field (p : Platform) (bs q : List Nat) (i : Nat)
    (h : key_field p bs i = q ++ [0]) (h0 : 0 ∉ q) : admn_no_at p bs i = q := by
  have := cstr_of_take_14 (bs.drop (i * p.sizeof_Student)) [] q h h0
  rwa [List.append_nil] at this

theorem not_mem_of_strlen_append_zero (q : List Nat) (h : strlen (q ++ [0]) = q.length) :
    0 ∉ q := by
  induction q with
  | nil => simp
  | cons c q ih =>
    simp only [List.cons_append, strlen, List.length_cons] at h
    by_cases hc : c = 0
    · simp [hc] at h
    · simp only [hc, if_false, Nat.add_right_cancel_iff] at h
      simp only [List.mem_cons, not_or]
      exact ⟨fun e => hc e.symm, ih h⟩

theorem key_field_store_below (p : Platform) (records : List Nat) (n i : Nat) (s : Student)
    (hB : 14 ≤ p.sizeof_Student) (hi : i < n) (hlen : n * p.sizeof_Student ≤ records.length) :
    key_field p (store_record p records n s) i = key_field p records i := by
  have h1 : (i + 1) * p.sizeof_Student ≤ n * p.sizeof_Student :=
    Nat.mul_le_mul_right _ hi
  have h2 : (i + 1) * p.sizeof_Student = i * p.sizeof_Student + p.sizeof_Student := by ring
  unfold key_field store_record
  rw [List.append_assoc, slice_append_left _ _ _ _ (by rw [List.length_take]; omega)]
  exact slice_take _ _ _ _ (by omega)

theorem key_field_store_at (p : Platform) (records : List Nat) (n : Nat) (s : Student)
    (hB : 14 ≤ p.sizeof_Student) (hs : (p.repr s).length = p.sizeof_Student)
    (hlen : n * p.sizeof_Student ≤ records.length) :
    key_field p (store_record p records n s) n = (p.repr s).take 14 := by
  have h := store_record_ptr p records n s hlen
  unfold admn_no_ptr at h
  unfold key_field
  rw [h]
  exact List.take_append_of_le_length (by omega)

theorem keys_ok_store (p : Platform) (hp : p.layout_ok) (st : Store) (s : Student)
    (hlen : st.records.length = MAX_STUDENTS * p.sizeof_Student)
    (hn : st.student_count < MAX_STUDENTS)
    (hk : keys_ok p st.records st.student_count)
    (hv : is_valid_admn_no s.admn_no = 1)
    (hb : ∃ b, s.admn_no = strncpy b 13 ++ [0])
    (hf : find_admn_no p st s.admn_no = none) :
    keys_ok p (store_record p st.records st.student_count s) (st.student_count + 1) := by
  have hB := layout_ok_sizeof p hp
  obtain ⟨b, hb⟩ := hb
  have hql : (strncpy b 13).length = 13 := strncpy_length b 13
  have hq0 : 0 ∉ strncpy b 13 := by
    apply not_mem_of_strlen_append_zero
    rw [← hb, hql]
    exact ((is_valid_admn_no_eq_one _).1 hv).1
  have hle : st.student_count * p.sizeof_Student ≤ st.records.length := by
    rw [hlen]; exact Nat.mul_le_mul_right _ (Nat.le_of_lt hn)
  have hnew : key_field p (store_record p st.records st.student_count s) st.student_count =
      strncpy b 13 ++ [0] := by
    rw [key_field_store_at p _ _ s hB (hp s).1 hle, (hp s).2 (by rw [hb]; simp [hql]), hb]
  have hold : ∀ i, i < st.student_count →
      key_field p (store_record p st.records st.student_count s) i =
        key_field p st.records i :=
    fun i hi => key_field_store_below p _ _ i s hB hi hle
  have hfresh : ∀ i, i < st.student_count → key_field p st.records i ≠ strncpy b 13 ++ [0] := by
    intro i hi he
    rcases find_admn_no_spec p st s.admn_no with ⟨j, _, _, _, hj⟩ | ⟨hall, _⟩
    · rw [hf] at hj; exact absurd hj (by simp)
    · apply hall i hi
      rw [admn_no_at_of_key_field p _ _ i he hq0, hb, cstr_append_zero _ [] hq0]
  refine ⟨?_, ?_⟩
  · intro i hi
    rcases Nat.lt_or_ge i st.student_count with h | h
    · rw [hold i h]; exact hk.1 i h
    · have : i = st.student_count := by omega
      subst this
      exact ⟨_, hq0, hql, hnew⟩
  · intro i j hi hj he
    rcases Nat.lt_or_ge i st.student_count with h | h <;>
      rcases Nat.lt_or_ge j st.student_count with h' | h'
    · rw [hold i h, hold j h'] at he
      exact hk.2 i j h h' he
    · have : j = st.student_count := by omega
      subst this
      rw [hold i h, hnew] at he
      exact absurd he (hfresh i h)
    · have : i = st.student_count := by omega
      subst this
      rw [hold j h', hnew] at he
      exact absurd he.symm (hfresh j h')
    · omega

theorem keys_ok_take (p : Platform) (bs : List Nat) (n : Nat) (hB : 14 ≤ p.sizeof_Student)
    (hk : keys_ok p bs n) : keys_ok p (bs.take (n * p.sizeof_Student)) n := by
  apply keys_ok_congr p bs _ n _ hk
  intro i hi
  have h1 : (i + 1) * p.sizeof_Student ≤ n * p.sizeof_Student :=
    Nat.mul_le_mul_right _ hi
  have h2 : (i + 1) * p.sizeof_Student = i * p.sizeof_Student + p.sizeof_Student := by ring
  exact slice_take _ _ _ _ (by omega)

theorem keys_ok_append (p : Platform) (data Y : List Nat) (m : Nat)
    (hB : 14 ≤ p.sizeof_Student) (hl : data.length = m * p.sizeof_Student)
    (hk : keys_ok p data m) : keys_ok p (data ++ Y) m := by
  apply keys_ok_congr p data _ m _ hk
  intro i hi
  have h1 : (i + 1) * p.sizeof_Student ≤ m * p.sizeof_Student :=
    Nat.mul_le_mul_right _ hi
  have h2 : (i + 1) * p.sizeof_Student = i * p.sizeof_Student + p.sizeof_Student := by ring
  exact slice_append_left _ _ _ _ (by omega)

theorem store_ok_save (p : Platform) (hp : p.layout_ok) (st : Store)
    (disk : Option (List Nat)) (wb_ok : Bool) (h : store_ok p st disk) :
    store_ok p st (save_records p wb_ok st disk) := by
  obtain ⟨hlen, hn, hk, hd⟩ := h
  refine ⟨hlen, hn, hk, ?_⟩
  intro data hdata
  unfold save_records at hdata
  cases wb_ok with
  | false => exact hd data (by simpa using hdata)
  | true =>
    simp only [if_true, Option.some.injEq] at hdata
    subst hdata
    refine ⟨st.student_count, hn, ?_, keys_ok_take p _ _ (layout_ok_sizeof p hp) hk⟩
    rw [List.length_take, hlen]
    have := Nat.mul_le_mul_right p.sizeof_Student hn
    omega

theorem store_ok_load (p : Platform) (hp : p.layout_ok) (st st0 : Store)
    (disk : Option (List Nat)) (rb_ok : Bool) (h : store_ok p st disk)
    (h0 : st0.records.length = MAX_STUDENTS * p.sizeof_Student) :
    store_ok p (load_records p (if rb_ok then disk else none) st0) disk := by
  obtain ⟨_, _, _, hd⟩ := h
  have hB := layout_ok_sizeof p hp
  have hnone : store_ok p (load_records p none st0) disk :=
    ⟨h0, Nat.zero_le _, keys_ok_zero p _, hd⟩
  cases rb_ok with
  | false => exact hnone
  | true =>
    cases hdisk : disk with
    | none => rw [hdisk] at hnone; exact hnone
    | some data =>
      obtain ⟨m, hm, hl, hk⟩ := hd data hdisk
      have hmB : m * p.sizeof_Student ≤ MAX_STUDENTS * p.sizeof_Student :=
        Nat.mul_le_mul_right _ hm
      have hnb : min data.length (MAX_STUDENTS * p.sizeof_Student) = data.length := by
        rw [hl]; omega
      have hcnt : min (data.length / p.sizeof_Student) MAX_STUDENTS = m := by
        rw [hl, Nat.mul_div_cancel _ (by omega : 0 < p.sizeof_Student)]; omega
      have hrec : (load_records p (some data) st0).records =
          data ++ st0.records.drop data.length := by
        show List.take _ data ++ _ = _
        rw [hnb, List.take_length]
      have hc : (load_records p (some data) st0).student_count = m := hcnt
      simp only [if_true]
      refine ⟨?_, by rw [hc]; exact hm, ?_, ?_⟩
      · rw [hrec, List.length_append, List.length_drop, h0, hl]; omega
      · rw [hrec, hc]
        exact keys_ok_append p data _ m hB hl hk
      · intro d hd'
        rw [← hdisk] at hd'
        exact hd d hd'

theorem store_ok_add (p : Platform) (hp : p.layout_ok) (st : Store)
    (disk : Option (List Nat)) (wb_ok : Bool) (stdin : List Nat) (h : store_ok p st disk) :
    store_ok p (add_record p wb_ok st disk stdin).st (add_record p wb_ok st disk stdin).disk := by
  rcases add_record_cases p wb_ok st disk stdin with ⟨h1, h2⟩ | ⟨s, hn, hv, hb, hf, hst, hdisk⟩
  · rw [h1, h2]; exact h
  · obtain ⟨hlen, _, hk, hd⟩ := h
    have hle : (st.student_count + 1) * p.sizeof_Student ≤ st.records.length := by
      rw [hlen]; exact Nat.mul_le_mul_right _ hn
    have hnew : store_ok p ⟨st.student_count + 1,
        store_record p st.records st.student_count s⟩ disk :=
      ⟨by rw [store_record_length p _ _ s (hp s).1 hle]; exact hlen, hn,
        keys_ok_store p hp st s hlen hn hk hv hb hf, hd⟩
    rw [hst]
    rcases hdisk with h2 | h2
    · rw [h2]; exact hnew
    · rw [h2]; exact store_ok_save p hp _ disk wb_ok hnew

theorem store_ok_delete (p : Platform) (st : Store) (disk : Option (List Nat))
    (remove_ok : Bool) (stdin : List Nat) (h : store_ok p st disk) :
    store_ok p (delete_all_records remove_ok st disk stdin).st
      (delete_all_records remove_ok st disk stdin).disk := by
  obtain ⟨hlen, hn, hk, hd⟩ := h
  have hclear : ∀ d : Option (List Nat), (d = disk ∨ d = none) →
      store_ok p { st with student_count := 0 } d := by
    intro d hd'
    refine ⟨hlen, Nat.zero_le _, keys_ok_zero p _, ?_⟩
    intro data he
    rcases hd' with e | e
    · exact hd data (by rw [← e]; exact he)
    · rw [e] at he; exact absurd he (by simp)
  unfold delete_all_records
  split
  · exact ⟨hlen, hn, hk, hd⟩
  · dsimp only
    split
    · exact ⟨hlen, hn, hk, hd⟩
    · split
      · dsimp only
        cases remove_ok with
        | true => exact hclear none (Or.inr rfl)
        | false => exact hclear disk (Or.inl rfl)
      · exact ⟨hlen, hn, hk, hd⟩

theorem store_ok_initial (p : Platform) :
    (Store.initial p).records.length = MAX_STUDENTS * p.sizeof_Student := by
  simp [Store.initial]

theorem reachable_store_ok (p : Platform) (hp : p.layout_ok) (st : Store)
    (disk : Option (List Nat)) (hr : Reachable p st disk) : store_ok p st disk := by
  induction hr with
  | start =>
    exact ⟨store_ok_initial p, Nat.zero_le _, keys_ok_zero p _, fun _ h => absurd h (by simp)⟩
  | add st disk wb_ok stdin _ ih => exact store_ok_add p hp st disk wb_ok stdin ih
  | save st disk wb_ok _ ih => exact store_ok_save p hp st disk wb_ok ih
  | load st disk rb_ok _ ih => exact store_ok_load p hp st st disk rb_ok ih ih.1
  | delete st disk remove_ok stdin _ ih => exact store_ok_delete p st disk remove_ok stdin ih
  | restart st disk rb_ok _ ih =>
    exact store_ok_load p hp st (Store.initial p) disk rb_ok ih (store_ok_initial p)

/-- C8, amended: in every state reachable from a first run that finds no file,
through `add_record`, `save_records`, `load_records`, confirmed or cancelled
`delete_all_records` and later runs of the program on the file it left, the
first `student_count` records have pairwise distinct `admn_no`. -/
theorem C8_unique_admn_no (p : Platform) (st : Store) (disk : Option (List Nat))
    (hp : p.layout_ok) (hr : Reachable p st disk) :
    ∀ i j, i < j → j < st.student_count →
      admn_no_at p st.records i ≠ admn_no_at p st.records j := by
  obtain ⟨_, _, hk, _⟩ := reachable_store_ok p hp st disk hr
  intro i j hij hj he
  obtain ⟨qi, hi0, _, hqi⟩ := hk.1 i (by omega)
  obtain ⟨qj, hj0, _, hqj⟩ := hk.1 j hj
  rw [admn_no_at_of_key_field p _ _ i hqi hi0, admn_no_at_of_key_field p _ _ j hqj hj0] at he
  have : i = j := hk.2 i j (by omega) hj (by rw [hqi, hqj, he])
  omega


/-! ## The prompt loops end -/

theorem fgets_chars_rest_length (k : Nat) (s : List Nat) :
    (fgets_chars k s).2.length ≤ s.length := by
  induction k generalizing s with
  | zero => simp [fgets_chars]
  | succ k ih =>
    cases s with
    | nil => simp [fgets_chars]
    | cons c s =>
      unfold fgets_chars
      by_cases hc : c = 10
      · simp [hc]
      · simp only [hc, if_false, List.length_cons]
        exact Nat.le_succ_of_le (ih s)

theorem fgets_256_rest_length (stdin buffer rest : List Nat)
    (h : fgets 256 stdin = some (buffer, rest)) : rest.length < stdin.length := by
  cases stdin with
  | nil => simp [fgets] at h
  | cons c s =>
    simp only [fgets, Option.some.injEq, Prod.mk.injEq] at h
    rw [← h.2]
    show (fgets_chars (254 + 1) (c :: s)).2.length < (c :: s).length
    unfold fgets_chars
    by_cases hc : c = 10
    · simp [hc]
    · simp only [hc, if_false, List.length_cons]
      exact Nat.lt_succ_of_le (fgets_chars_rest_length 254 s)

theorem prompt_loop_fuel_irrelevant {α : Type} (parse : List Nat → α) (reject : α → Bool)
    (f1 f2 : Nat) (stdin : List Nat) (h1 : stdin.length < f1) (h2 : stdin.length < f2) :
    prompt_loop parse reject f1 stdin = prompt_loop parse reject f2 stdin := by
  induction f1 generalizing f2 stdin with
  | zero => omega
  | succ f1 ih =>
    cases f2 with
    | zero => omega
    | succ f2 =>
      unfold prompt_loop
      cases hf : fgets 256 stdin with
      | none => rfl
      | some br =>
        obtain ⟨buffer, rest⟩ := br
        have hl := fgets_256_rest_length stdin buffer rest hf
        dsimp only
        split
        · exact ih f2 rest (by omega) (by omega)
        · rfl

/-- The fuel `add_record` gives a prompt loop is never used up: more fuel gives
the same result. -/
theorem prompt_loop_fuel {α : Type} (parse : List Nat → α) (reject : α → Bool)
    (fuel : Nat) (stdin : List Nat) (h : stdin.length < fuel) :
    prompt_loop parse reject fuel stdin =
      prompt_loop parse reject (stdin.length + 1) stdin :=
  prompt_loop_fuel_irrelevant parse reject fuel _ stdin h (Nat.lt_succ_self _)

theorem prompt_loop_accepted {α : Type} (parse : List Nat → α) (reject : α → Bool)
    (fuel : Nat) (stdin : List Nat) (v : α) (rest : List Nat)
    (h : prompt_loop parse reject fuel stdin = some (v, rest)) : reject v = false := by
  induction fuel generalizing stdin with
  | zero => simp [prompt_loop] at h
  | succ fuel ih =>
    unfold prompt_loop at h
    split at h
    · contradiction
    · split at h
      · exact ih _ h
      · rename_i hr
        simp only [Option.some.injEq, Prod.mk.injEq] at h
        rw [← h.1]
        simpa using hr

/-- What the four validation loops of `add_record` ensure for the record they
fill: the integers are in range, and neither `float` compares below its lower
or above its upper bound. -/
theorem read_student_checked (p : Platform) (k stdin : List Nat) (s : Student)
    (rest : List Nat) (h : read_student p k stdin = some (s, rest)) :
    (16 ≤ s.age ∧ s.age ≤ 99) ∧ (1 ≤ s.year_of_study ∧ s.year_of_study ≤ 4) ∧
    (s.gpa.lt F32.zero = false ∧ F32.ten.lt s.gpa = false) ∧
    (s.attendance_perc.lt F32.zero = false ∧ F32.hundred.lt s.attendance_perc = false) := by
  unfold read_student at h
  repeat' split at h
  all_goals first
    | contradiction
    | skip
  rename_i _ _ _ _ _ age _ hage _ _ _ _ _ _ _ _ _ gpa _ hgpa _ att _ hatt _ year _ hyear
  simp only [Option.some.injEq, Prod.mk.injEq] at h
  rw [← h.1]
  have a := prompt_loop_accepted _ _ _ _ _ _ hage
  have b := prompt_loop_accepted _ _ _ _ _ _ hgpa
  have c := prompt_loop_accepted _ _ _ _ _ _ hatt
  have d := prompt_loop_accepted _ _ _ _ _ _ hyear
  simp only [Bool.or_eq_false_iff, decide_eq_false_iff_not] at a b c d
  dsimp only
  refine ⟨⟨by omega, by omega⟩, ⟨by omega, by omega⟩, b, c⟩

/-! ## The concrete platform -/

theorem x86_64_layout_ok : x86_64.layout_ok := by
  intro s
  refine ⟨?_, ?_⟩
  · simp [x86_64, repr_x86_64, fit, le32, MAX_NAME_LEN, MAX_COURSE_LEN, MAX_SUBJECTS_LEN]
  · intro h
    show (repr_x86_64 s).take 14 = s.admn_no
    have hf : fit 14 s.admn_no = s.admn_no := by
      unfold fit
      rw [List.take_append_of_le_length (by omega), ← h, List.take_length]
    unfold repr_x86_64
    rw [hf]
    simp only [List.append_assoc]
    rw [List.take_append_of_le_length (by omega), ← h, List.take_length]


/-! ## The claims at concrete inputs -/

/-- C2 at a concrete input: the admission number of the stored record is
entered a second time. -/
theorem C2_duplicate_error_witness :
    is_valid_admn_no (bytes "AP00000000001") = 1 ∧
    admn_no_at x86_64 one_record.records 0 = bytes "AP00000000001" ∧
    (add_record x86_64 true one_record none asha_input).outcome = AddOutcome.duplicate_error ∧
    (add_record x86_64 true one_record none asha_input).st = one_record :=
  ⟨by decide, by decide,
    (C2_duplicate_error x86_64 true one_record none (bytes "AP00000000001") asha_fields
      (by decide) (by decide) (by decide) ⟨0, by decide, by decide⟩).1,
    (C2_duplicate_error x86_64 true one_record none (bytes "AP00000000001") asha_fields
      (by decide) (by decide) (by decide) ⟨0, by decide, by decide⟩).2.1⟩

set_option maxRecDepth 4000 in
/-- C2, as stated, fails: after loading a file whose only block has the
`admn_no` `XP1`, entering `XP1` matches the stored `admn_no` exactly, yet
`add_record` ends with the invalid-format error, not the duplicate error. -/
theorem C2_counterexample :
    (load_records x86_64 (some foreign_file) (Store.initial x86_64)).student_count = 1 ∧
    admn_no_at x86_64
      (load_records x86_64 (some foreign_file) (Store.initial x86_64)).records 0 = bytes "XP1" ∧
    (add_record x86_64 true (load_records x86_64 (some foreign_file) (Store.initial x86_64))
      (some foreign_file) (bytes "XP1\n\n")).outcome = AddOutcome.invalid_format := by
  decide

/-- C3: the code departs from the claim. The operator types
`AP000000000012345`, which `is_valid_admn_no` rejects; `add_record` validates
the first 13 bytes only, does not abort, and stores a record under
`AP00000000001`, a key the operator did not type. -/
theorem C3_truncated_key_is_stored :
    is_valid_admn_no (bytes "AP000000000012345") = 0 ∧
    (add_record x86_64 false (Store.initial x86_64) none long_key_input).outcome =
      AddOutcome.added ∧
    (add_record x86_64 false (Store.initial x86_64) none long_key_input).st.student_count = 1 ∧
    admn_no_at x86_64
      (add_record x86_64 false (Store.initial x86_64) none long_key_input).st.records 0 =
        bytes "AP00000000001" := by
  decide

/-- The successful path at a concrete input: `ravi_input` typed after one
record was stored. -/
theorem add_record_appends_second_entry :
    (add_record x86_64 false one_record none ravi_input).outcome = AddOutcome.added ∧
    (add_record x86_64 false one_record none ravi_input).st.student_count = 2 ∧
    record_at x86_64 (add_record x86_64 false one_record none ravi_input).st.records 0 =
      record_at x86_64 one_record.records 0 ∧
    admn_no_at x86_64 (add_record x86_64 false one_record none ravi_input).st.records 1 =
      bytes "AP00000000002" := by
  have hc : one_record.student_count = 1 := by decide
  have h := add_record_appends_short_lines x86_64 false one_record none
    (bytes "AP00000000002") (bytes "Ravi") (bytes "21") (bytes "EE") (bytes "Circuits")
    (bytes "7.25") (bytes "88.5") (bytes "3") (bytes "N\n\n")
    x86_64_layout_ok
    (reachable_store_ok x86_64 x86_64_layout_ok _ _
      (Reachable.add _ _ false asha_input Reachable.start)).1
    (by decide) (by decide) (by decide)
    (fun i hi => by
      have h0 : i = 0 := by omega
      subst h0
      decide)
    (by decide) (by decide) (by decide) (by decide) (by decide) (by decide) (by decide)
    (by decide) (by decide) (by decide) (by decide)
  exact ⟨h.1, h.2.1, h.2.2.1 0 (by decide), h.2.2.2.2⟩

set_option maxRecDepth 8000 in
/-- C4: the code departs from the claim. With one record stored, the operator
types a new valid admission number and in-range values, the course line 300
bytes long. `fgets` takes 255 bytes of that line and leaves 45 in the stream;
the subjects prompt reads them, the GPA prompt reads `Math,OS` as `0.0`, the
attendance prompt reads the GPA and the year prompt reads `2.0` as `2`. A
record is appended, but not the one built from the lines typed. -/
theorem C4_long_line_shifts_fields :
    one_record.student_count = 1 ∧
    is_valid_admn_no (bytes "AP00000000002") = 1 ∧
    admn_no_at x86_64 one_record.records 0 ≠ bytes "AP00000000002" ∧
    x86_64.atoi (bytes "21\n" ++ [0]) = 21 ∧
    x86_64.atof (bytes "8.5\n" ++ [0]) = ⟨0x41080000⟩ ∧
    x86_64.atof (bytes "2.0\n" ++ [0]) = ⟨0x40000000⟩ ∧
    x86_64.atoi (bytes "3\n" ++ [0]) = 3 ∧
    (add_record x86_64 false one_record none long_course_input).outcome = AddOutcome.added ∧
    (add_record x86_64 false one_record none long_course_input).st.student_count = 2 ∧
    record_at x86_64 (add_record x86_64 false one_record none long_course_input).st.records 1 =
      repr_x86_64 long_course_stored ∧
    record_at x86_64 (add_record x86_64 false one_record none long_course_input).st.records 1 ≠
      repr_x86_64 long_course_typed := by
  decide

/-- C5 at a concrete input: a full array and an entry that would be new. -/
theorem C5_capacity_error_witness :
    (add_record x86_64 true full_store none asha_input).outcome = AddOutcome.capacity_error ∧
    (add_record x86_64 true full_store none asha_input).st = full_store ∧
    (add_record x86_64 true full_store none asha_input).stdin = pause_and_clear asha_input :=
  ⟨(C5_capacity_error x86_64 true full_store none asha_input rfl).1,
    (C5_capacity_error x86_64 true full_store none asha_input rfl).2.1,
    (C5_capacity_error x86_64 true full_store none asha_input rfl).2.2.2⟩

/-- C6 at a concrete input: one record saved and loaded by a fresh process. -/
theorem C6_save_load_round_trip_witness :
    (load_records x86_64 (save_records x86_64 true one_record none)
      (Store.initial x86_64)).student_count = 1 ∧
    record_at x86_64 (load_records x86_64 (save_records x86_64 true one_record none)
      (Store.initial x86_64)).records 0 = record_at x86_64 one_record.records 0 :=
  ⟨(C6_save_load_round_trip x86_64 one_record (Store.initial x86_64) none (by decide)
      (by decide)
      (reachable_store_ok x86_64 x86_64_layout_ok _ _
        (Reachable.add _ _ false asha_input Reachable.start)).1).1,
    (C6_save_load_round_trip x86_64 one_record (Store.initial x86_64) none (by decide)
      (by decide)
      (reachable_store_ok x86_64 x86_64_layout_ok _ _
        (Reachable.add _ _ false asha_input Reachable.start)).1).2 0 (by decide)⟩

/-- C7 at a concrete input: the search for the stored admission number. -/
theorem C7_search_record_witness :
    is_valid_admn_no (bytes "AP00000000001") = 1 ∧
    admn_no_at x86_64 one_record.records 0 = bytes "AP00000000001" ∧
    (search_record x86_64 one_record (bytes "AP00000000001" ++ 10 :: [])).outcome =
      SearchOutcome.found 0 :=
  ⟨by decide, by decide,
    (C7_search_record x86_64 one_record (bytes "AP00000000001") [] (by decide)
      (by decide)).2.1 0 (by decide) (by decide)
      (fun j hj _ => Nat.lt_one_iff.mp (by
        have h : one_record.student_count = 1 := by decide
        rw [h] at hj; exact hj))⟩

/-- C7, as stated, fails: with one record stored under `AP00000000001`, the
operator searches for `XP12345678901`; no stored `admn_no` equals it, yet
`search_record` does not report not-found, it reports an invalid format. -/
theorem C7_counterexample :
    one_record.student_count = 1 ∧
    admn_no_at x86_64 one_record.records 0 ≠ bytes "XP12345678901" ∧
    (search_record x86_64 one_record (bytes "XP12345678901\n")).outcome =
      SearchOutcome.invalid_format ∧
    (search_record x86_64 one_record (bytes "XP12345678901\n")).outcome ≠
      SearchOutcome.not_found := by
  decide

/-- C8 at a concrete input: two entries typed into a fresh process. -/
theorem C8_unique_admn_no_witness :
    two_records.student_count = 2 ∧
    admn_no_at x86_64 two_records.records 0 ≠ admn_no_at x86_64 two_records.records 1 :=
  ⟨by decide,
    C8_unique_admn_no x86_64 two_records _ x86_64_layout_ok
      (Reachable.add _ _ false ravi_input (Reachable.add _ _ false asha_input Reachable.start))
      0 1 (by decide) (by decide)⟩

set_option maxRecDepth 4000 in
/-- C8, as stated, fails: at process start `load_records` takes whatever the
file holds; from a file with the same block twice it sets `student_count` to 2
with the same `admn_no` in `records[0]` and `records[1]`. -/
theorem C8_counterexample :
    (load_records x86_64 (some twin_file) (Store.initial x86_64)).student_count = 2 ∧
    admn_no_at x86_64 (load_records x86_64 (some twin_file) (Store.initial x86_64)).records 0 =
      admn_no_at x86_64
        (load_records x86_64 (some twin_file) (Store.initial x86_64)).records 1 := by
  decide

set_option maxRecDepth 4000 in
/-- C9: the code departs from the claim. `nan` typed at the GPA prompt is
parsed to a NaN, for which both `gpa < 0.0` and `gpa > 10.0` are false; the
loop ends without a re-prompt and the record is appended with a GPA for which
`0.0 <= gpa` does not hold. -/
theorem C9_nan_gpa_is_stored :
    x86_64.atof (bytes "nan\n" ++ [0]) = ⟨0x7FC00000⟩ ∧
    F32.lt ⟨0x7FC00000⟩ F32.zero = false ∧ F32.lt F32.ten ⟨0x7FC00000⟩ = false ∧
    (add_record x86_64 false (Store.initial x86_64) none nan_gpa_input).outcome =
      AddOutcome.added ∧
    record_at x86_64
      (add_record x86_64 false (Store.initial x86_64) none nan_gpa_input).st.records 0 =
        repr_x86_64 { asha with gpa := ⟨0x7FC00000⟩ } ∧
    F32.le F32.zero ⟨0x7FC00000⟩ = false := by
  decide

end StudentReport
